import Mathlib

/-!
Verification of the consearch resolution engine against its design spec.

Strings from the Python source are modelled as `List Char`; floats as `ℚ`;
fallible constructors as `Except`.  Each definition follows the structure of
the corresponding Python function (file and symbol named in its doc comment).
Regular expressions are rendered as explicit deterministic matchers; where
the original pattern allows genuine backtracking choice the alternatives are
enumerated with `||` in the regex engine's preference order.
-/

namespace Consearch

/-! ## Python string primitives -/

/-- ASCII whitespace as matched by Python's `str.strip` and regex `\s`
(space, tab, newline, carriage return, vertical tab, form feed). -/
def pyIsSpace (c : Char) : Bool :=
  c = ' ' || c = '\t' || c = '\n' || c = '\r' || c = '\x0b' || c = '\x0c'

/-- ASCII lowering, as `str.lower` acts on the ASCII inputs used here. -/
def pyToLower (c : Char) : Char :=
  if 'A' ≤ c && c ≤ 'Z' then Char.ofNat (c.toNat + 32) else c

/-- ASCII uppering, as `str.upper` acts on the ASCII inputs used here. -/
def pyToUpper (c : Char) : Char :=
  if 'a' ≤ c && c ≤ 'z' then Char.ofNat (c.toNat - 32) else c

def lowerStr (s : List Char) : List Char := s.map pyToLower

def upperStr (s : List Char) : List Char := s.map pyToUpper

/-- `p` is a prefix of `s` (Python `str.startswith`). -/
def startsWith : List Char → List Char → Bool
  | [], _ => true
  | _ :: _, [] => false
  | p :: ps, c :: cs => p = c && startsWith ps cs

/-- Case-insensitive `startsWith` (for `re.IGNORECASE` literals); the
pattern literal `p` is given in lowercase. -/
def startsWithCI (p s : List Char) : Bool := startsWith p (lowerStr s)

/-- Python `pat in s` (substring containment). -/
def containsSub (pat s : List Char) : Bool :=
  (s.tails).any (fun t => startsWith pat t)

/-- Python `str.lstrip()` (whitespace from the left). -/
def pyLStrip (s : List Char) : List Char := s.dropWhile pyIsSpace

/-- Python `str.rstrip()` (whitespace from the right). -/
def pyRStrip (s : List Char) : List Char :=
  ((s.reverse).dropWhile pyIsSpace).reverse

/-- Python `str.strip()`. -/
def pyStrip (s : List Char) : List Char := pyRStrip (pyLStrip s)

/-- Python `str.rstrip(chars)`: remove trailing characters drawn from `set`. -/
def pyRStripSet (set : List Char) (s : List Char) : List Char :=
  ((s.reverse).dropWhile (fun c => set.contains c)).reverse

/-- The suffix of `s` after the first occurrence of `pat`
(`s.split(pat, 1)[1]` when `pat` occurs in `s`). -/
def afterFirst (pat : List Char) : List Char → Option (List Char)
  | [] => if startsWith pat [] then some [] else none
  | c :: t =>
    if startsWith pat (c :: t) then some ((c :: t).drop pat.length)
    else afterFirst pat t

/-- Numeric value of a character, as Python `int(c)` on digits, with `X`
standing for 10 in ISBN-10 check positions. -/
def digitVal (c : Char) : Nat :=
  if c = 'X' then 10 else c.toNat - 48

/-- Render a checksum digit 0–9 as a character (Python `str(n)`). -/
def digitChar (n : Nat) : Char :=
  match n with
  | 0 => '0' | 1 => '1' | 2 => '2' | 3 => '3' | 4 => '4'
  | 5 => '5' | 6 => '6' | 7 => '7' | 8 => '8' | 9 => '9'
  | _ => '*'

/-! ## ISBN value object (`src/consearch/core/identifiers.py`, class `ISBN`) -/

inductive IsbnFormat where
  | isbn10
  | isbn13
deriving DecidableEq, Repr

/-- `ISBN`: normalized value plus format tag. -/
structure ISBN where
  value : List Char
  format : IsbnFormat
deriving DecidableEq, Repr

/-- `ISBN.normalize_isbn`: remove hyphens and whitespace, uppercase. -/
def isbnNormalize (s : List Char) : List Char :=
  upperStr (s.filter (fun c => !(c = '-' || pyIsSpace c)))

/-- `ISBN.ISBN10_PATTERN` (`^[0-9]{9}[0-9X]$`). -/
def isbn10Shape (s : List Char) : Bool :=
  s.length = 10 && (s.dropLast).all Char.isDigit &&
    (match s.getLast? with
     | some c => c.isDigit || c = 'X'
     | none => false)

/-- `ISBN.ISBN13_PATTERN` (`^(978|979)[0-9]{10}$`). -/
def isbn13Shape (s : List Char) : Bool :=
  s.length = 13 && s.all Char.isDigit &&
    (startsWith ['9', '7', '8'] s || startsWith ['9', '7', '9'] s)

/-- Weighted sum `Σ digit_i × w` with weight starting at `w` and
decreasing by one per position (the ISBN-10 checksum sum). -/
def isbn10Sum : List Char → Nat → Nat
  | [], _ => 0
  | c :: cs, w => w * digitVal c + isbn10Sum cs (w - 1)

/-- `ISBN._validate_isbn10_checksum`. -/
def isbn10ChecksumOk (s : List Char) : Bool := isbn10Sum s 10 % 11 = 0

/-- Alternating 1/3-weighted sum; `even = true` means the current position
has even index (weight 1). -/
def isbn13Sum : List Char → Bool → Nat
  | [], _ => 0
  | c :: cs, even => (if even then 1 else 3) * digitVal c + isbn13Sum cs (!even)

/-- `ISBN._validate_isbn13_checksum`. -/
def isbn13ChecksumOk (s : List Char) : Bool := isbn13Sum s true % 10 = 0

/-- The `ISBN(value=…, format=…)` constructor: normalization followed by the
`validate_isbn_format` model validator.  Errors are the `ValueError`s raised
there. -/
def isbnMk (v : List Char) (fmt : IsbnFormat) : Except String ISBN :=
  let value := isbnNormalize v
  match fmt with
  | .isbn10 =>
    if isbn10Shape value then
      if isbn10ChecksumOk value then .ok ⟨value, .isbn10⟩
      else .error "Invalid ISBN-10 checksum"
    else .error "Invalid ISBN-10 format"
  | .isbn13 =>
    if isbn13Shape value then
      if isbn13ChecksumOk value then .ok ⟨value, .isbn13⟩
      else .error "Invalid ISBN-13 checksum"
    else .error "Invalid ISBN-13 format"

/-- `ISBN.parse`: auto-detect the format from the normalized length. -/
def isbnParse (v : List Char) : Except String ISBN :=
  let normalized := isbnNormalize v
  if normalized.length = 10 then isbnMk normalized .isbn10
  else if normalized.length = 13 then isbnMk normalized .isbn13
  else .error "Invalid ISBN length"

/-- `ISBN._calculate_isbn13_checksum`. -/
def calcIsbn13Checksum (base : List Char) : Nat :=
  (10 - isbn13Sum base true % 10) % 10

/-- `ISBN._calculate_isbn10_checksum` (returns `X` for remainder 10). -/
def calcIsbn10Checksum (base : List Char) : Char :=
  let checksum := (11 - isbn10Sum base 10 % 11) % 11
  if checksum = 10 then 'X' else digitChar checksum

/-- `ISBN.to_isbn13`: prepend `978` to the 9-digit body and recompute the
mod-10 check digit (re-running the constructor's validation, as the Python
constructor does). -/
def toIsbn13 (i : ISBN) : Except String ISBN :=
  match i.format with
  | .isbn13 => .ok i
  | .isbn10 =>
    let base := ['9', '7', '8'] ++ i.value.dropLast
    let checksum := calcIsbn13Checksum base
    isbnMk (base ++ [digitChar checksum]) .isbn13

/-- `ISBN.to_isbn10`: only for the `978` prefix; strip it and recompute the
mod-11 check digit.  `none` models the Python `None` for a `979` prefix. -/
def toIsbn10 (i : ISBN) : Except String (Option ISBN) :=
  match i.format with
  | .isbn10 => .ok (some i)
  | .isbn13 =>
    if startsWith ['9', '7', '8'] i.value then
      let base := (i.value.drop 3).dropLast
      let checksum := calcIsbn10Checksum base
      (isbnMk (base ++ [checksum]) .isbn10).map some
    else .ok none

/-- `ISBN.__hash__` hashes `self.to_isbn13().value`; two ISBNs collide in a
Python hash container exactly when these key strings are equal, so the key
itself stands for the hash. -/
def isbnHashKey (i : ISBN) : List Char :=
  match toIsbn13 i with
  | .ok j => j.value
  | .error _ => []

/-- `ISBN.parse(x).to_isbn13().to_isbn10().value`, the composite of the
spec's round-trip property. -/
def isbnRoundtrip (s : List Char) : Except String (List Char) := do
  let i ← isbnParse s
  let j ← toIsbn13 i
  match ← toIsbn10 j with
  | some k => pure k.value
  | none => throw "no ISBN-10 form"

/-! ## Character facts -/

theorem char_eq_of_toNat_eq {c d : Char} (h : c.toNat = d.toNat) : c = d :=
  Char.eq_of_val_eq (UInt32.ext h)

theorem isDigit_toNat {c : Char} (h : c.isDigit = true) :
    48 ≤ c.toNat ∧ c.toNat ≤ 57 := by
  simp [Char.isDigit] at h
  obtain ⟨h1, h2⟩ := h
  refine ⟨?_, ?_⟩
  · have : (48 : UInt32).toNat ≤ c.val.toNat := h1
    simpa using this
  · have : c.val.toNat ≤ (57 : UInt32).toNat := h2
    simpa using this

theorem isDigit_ne_X {c : Char} (h : c.isDigit = true) : c ≠ 'X' := by
  intro e; subst e; exact absurd h (by decide)

theorem digitVal_of_digit {c : Char} (h : c.isDigit = true) :
    digitVal c = c.toNat - 48 := by
  unfold digitVal
  rw [if_neg (isDigit_ne_X h)]

theorem digitVal_digit_le {c : Char} (h : c.isDigit = true) : digitVal c ≤ 9 := by
  rw [digitVal_of_digit h]
  have := isDigit_toNat h
  omega

theorem digitVal_digitChar {n : Nat} (h : n ≤ 9) : digitVal (digitChar n) = n := by
  interval_cases n <;> decide

theorem digitChar_isDigit {n : Nat} (h : n ≤ 9) : (digitChar n).isDigit = true := by
  interval_cases n <;> decide

theorem digitChar_digitVal {c : Char} (h : c.isDigit = true) :
    digitChar (digitVal c) = c := by
  obtain ⟨h1, h2⟩ := isDigit_toNat h
  rw [digitVal_of_digit h]
  set n := c.toNat with hn
  interval_cases n <;>
    exact char_eq_of_toNat_eq (by rw [← hn]; decide)

theorem isbnChar_keep {c : Char} (h : c.isDigit = true ∨ c = 'X') :
    (!(c = '-' || pyIsSpace c)) = true := by
  rcases h with h | h
  · have hne : ∀ d : Char, d.toNat < 48 → c ≠ d := by
      intro d hd e
      subst e
      have := isDigit_toNat h
      omega
    simp [pyIsSpace, hne '-' (by decide), hne ' ' (by decide),
      hne '\t' (by decide), hne '\n' (by decide), hne '\r' (by decide),
      hne '\x0b' (by decide), hne '\x0c' (by decide)]
  · subst h; decide

theorem pyToUpper_isbnChar {c : Char} (h : c.isDigit = true ∨ c = 'X') :
    pyToUpper c = c := by
  rcases h with h | h
  · obtain ⟨h1, h2⟩ := isDigit_toNat h
    unfold pyToUpper
    have : ('a' ≤ c && c ≤ 'z') = false := by
      simp only [Bool.and_eq_false_iff, decide_eq_false_iff_not]
      left
      intro hle
      have h3 : ('a' : Char).val.toNat ≤ c.val.toNat := Char.le_def.mp hle
      have h4 : ('a' : Char).val.toNat = 97 := by decide
      have h5 : c.val.toNat = c.toNat := rfl
      omega
    rw [this]
    rfl
  · subst h; decide

theorem isbnNormalize_eq_self {s : List Char}
    (h : ∀ c ∈ s, c.isDigit = true ∨ c = 'X') : isbnNormalize s = s := by
  unfold isbnNormalize upperStr
  rw [List.filter_eq_self.mpr (fun c hc => isbnChar_keep (h c hc))]
  have := List.map_congr_left (l := s) (f := pyToUpper) (g := id)
    (fun c hc => pyToUpper_isbnChar (h c hc))
  rw [this, List.map_id]

/-! ## Checksum sum lemmas -/

theorem isbn10Sum_append (b : List Char) (c : Char) (w : Nat) :
    isbn10Sum (b ++ [c]) w = isbn10Sum b w + (w - b.length) * digitVal c := by
  induction b generalizing w with
  | nil => simp [isbn10Sum]
  | cons a b ih =>
    simp only [List.cons_append, isbn10Sum, List.length_cons, List.append_eq]
    rw [ih (w - 1)]
    have : w - 1 - b.length = w - (b.length + 1) := by omega
    rw [this]
    ring

theorem isbn13Sum_append (l m : List Char) (e : Bool) :
    isbn13Sum (l ++ m) e =
      isbn13Sum l e + isbn13Sum m (if l.length % 2 = 0 then e else !e) := by
  induction l generalizing e with
  | nil => simp [isbn13Sum]
  | cons a l ih =>
    simp only [List.cons_append, isbn13Sum, List.length_cons, List.append_eq]
    rw [ih (!e)]
    by_cases h : l.length % 2 = 0
    · have h1 : (l.length + 1) % 2 = 1 := by omega
      simp [h, h1, Nat.add_assoc]
    · have h1 : (l.length + 1) % 2 = 0 := by omega
      simp [h, h1, Nat.add_assoc]

theorem isbn10Shape_parts {s : List Char} (h : isbn10Shape s = true) (hne : s ≠ []) :
    s.length = 10 ∧ (∀ x ∈ s.dropLast, x.isDigit = true) ∧
      ((s.getLast hne).isDigit = true ∨ s.getLast hne = 'X') := by
  unfold isbn10Shape at h
  rw [List.getLast?_eq_getLast s hne] at h
  simp only [Bool.and_eq_true, decide_eq_true_eq, List.all_eq_true,
    Bool.or_eq_true] at h
  exact ⟨h.1.1, h.1.2, h.2⟩

/-- C4 main lemma: parsing a valid plain ISBN-10 string yields exactly that
string in ISBN-10 format. -/
theorem isbnParse_valid10 {s : List Char} (h1 : isbn10Shape s = true)
    (h2 : isbn10ChecksumOk s = true) (hnorm : isbnNormalize s = s)
    (hlen : s.length = 10) : isbnParse s = .ok ⟨s, .isbn10⟩ := by
  unfold isbnParse isbnMk
  simp [hnorm, hlen, h1, h2]

/-- C4: for every valid plain ISBN-10 string `s` (nine digits plus a mod-11
check character, possibly `X`), `ISBN.parse(s).to_isbn13().to_isbn10().value`
is `s` again: `to_isbn13` prepends `978` and recomputes the mod-10 check
digit, and `to_isbn10` strips it and recomputes the mod-11 check digit
(`X` for remainder 10). -/
theorem isbn10_to13_to10_roundtrip (s : List Char) (h1 : isbn10Shape s = true)
    (h2 : isbn10ChecksumOk s = true) : isbnRoundtrip s = .ok s := by
  have hne : s ≠ [] := by
    intro e
    subst e
    simp [isbn10Shape] at h1
  obtain ⟨hlen, hbd, hcX⟩ := isbn10Shape_parts h1 hne
  set b := s.dropLast with hb
  set c := s.getLast hne with hcdef
  have hsplit : b ++ [c] = s := List.dropLast_append_getLast hne
  have hall : ∀ x ∈ s, x.isDigit = true ∨ x = 'X' := by
    intro x hx
    rw [← hsplit] at hx
    rcases List.mem_append.mp hx with hx | hx
    · exact .inl (hbd x hx)
    · rcases List.mem_singleton.mp hx with rfl
      exact hcX
  have hnorm : isbnNormalize s = s := isbnNormalize_eq_self hall
  have hb_len : b.length = 9 := by
    rw [hb, List.length_dropLast, hlen]
  have hparse : isbnParse s = .ok ⟨s, .isbn10⟩ := isbnParse_valid10 h1 h2 hnorm hlen
  -- the ISBN-13 form built by `to_isbn13`
  set base := ['9', '7', '8'] ++ b with hbase
  set cs := calcIsbn13Checksum base with hcs
  have hcs9 : cs ≤ 9 := by
    have : cs < 10 := by
      rw [hcs]
      unfold calcIsbn13Checksum
      exact Nat.mod_lt _ (by norm_num)
    omega
  set val13 := base ++ [digitChar cs] with hval13
  have h13all : ∀ x ∈ val13, x.isDigit = true := by
    intro x hx
    rw [hval13] at hx
    rcases List.mem_append.mp hx with hx1 | hx2
    · rw [hbase] at hx1
      rcases List.mem_append.mp hx1 with hx3 | hx4
      · fin_cases hx3 <;> decide
      · exact hbd x hx4
    · rcases List.mem_singleton.mp hx2 with rfl
      exact digitChar_isDigit hcs9
  have hnorm13 : isbnNormalize val13 = val13 :=
    isbnNormalize_eq_self (fun x hx => .inl (h13all x hx))
  have hlen13 : val13.length = 13 := by
    rw [hval13, hbase]
    simp [hb_len]
  have hstarts : startsWith ['9', '7', '8'] val13 = true := by
    rw [hval13, hbase]
    simp [startsWith]
  have hshape13 : isbn13Shape val13 = true := by
    unfold isbn13Shape
    refine (Bool.and_eq_true _ _).mpr ⟨(Bool.and_eq_true _ _).mpr ⟨?_, ?_⟩, ?_⟩
    · simp [hlen13]
    · exact List.all_eq_true.mpr h13all
    · rw [hstarts]
      rfl
  have hblen : base.length = 12 := by
    rw [hbase]
    simp [hb_len]
  have hsum13 : isbn13ChecksumOk val13 = true := by
    have hone : isbn13Sum [digitChar cs] true = digitVal (digitChar cs) := by
      simp [isbn13Sum]
    have heq : isbn13Sum val13 true = isbn13Sum base true + cs := by
      rw [hval13, isbn13Sum_append, hblen]
      have hif : (if (12 : Nat) % 2 = 0 then true else !true) = true := by
        norm_num
      rw [hif, hone, digitVal_digitChar hcs9]
    unfold isbn13ChecksumOk
    rw [heq]
    simp only [decide_eq_true_eq]
    rw [hcs]
    unfold calcIsbn13Checksum
    omega
  have h13 : toIsbn13 ⟨s, .isbn10⟩ = .ok ⟨val13, .isbn13⟩ := by
    unfold toIsbn13 isbnMk
    simp only [← hb, ← hbase, ← hcs, ← hval13, hnorm13, hshape13, hsum13,
      if_true]
  -- converting back
  have hbase10 : (val13.drop 3).dropLast = b := by
    rw [hval13, hbase]
    rw [List.append_assoc]
    have h3 : (3 : Nat) = (['9', '7', '8'] : List Char).length := by decide
    rw [h3, List.drop_left]
    exact List.dropLast_concat
  have hchk : calcIsbn10Checksum b = c := by
    have hT : isbn10Sum s 10 = isbn10Sum b 10 + digitVal c := by
      rw [← hsplit, isbn10Sum_append, hb_len]
      norm_num
    have h2' : isbn10Sum s 10 % 11 = 0 := by
      have := h2
      unfold isbn10ChecksumOk at this
      exact of_decide_eq_true this
    have hdvc : digitVal c ≤ 10 := by
      rcases hcX with hd | hX
      · have := digitVal_digit_le hd
        omega
      · rw [hX]
        decide
    have hstar : (11 - isbn10Sum b 10 % 11) % 11 = digitVal c := by omega
    unfold calcIsbn10Checksum
    rw [hstar]
    rcases hcX with hd | hX
    · rw [if_neg (by have := digitVal_digit_le hd; omega)]
      exact digitChar_digitVal hd
    · rw [hX]
      decide
  have h10 : toIsbn10 ⟨val13, .isbn13⟩ = .ok (some ⟨s, .isbn10⟩) := by
    unfold toIsbn10
    simp only [hstarts, if_true, hbase10, hchk, hsplit]
    unfold isbnMk
    simp only [hnorm, h1, h2, if_true]
    rfl
  show (do
    let i ← isbnParse s
    let j ← toIsbn13 i
    match ← toIsbn10 j with
    | some k => pure k.value
    | none => throw "no ISBN-10 form") = Except.ok s
  rw [hparse]
  show (do
    let j ← toIsbn13 ⟨s, .isbn10⟩
    match ← toIsbn10 j with
    | some k => pure k.value
    | none => throw "no ISBN-10 form" : Except String (List Char)) = Except.ok s
  rw [h13]
  show (do
    match ← toIsbn10 ⟨val13, .isbn13⟩ with
    | some k => pure k.value
    | none => throw "no ISBN-10 form" : Except String (List Char)) = Except.ok s
  rw [h10]
  rfl

/-- C4 witness: the round trip at the repository's own test vector
`0134093410`. -/
theorem isbn10_to13_to10_roundtrip_witness :
    isbn10Shape ('0' :: '1' :: '3' :: '4' :: '0' :: '9' :: '3' :: '4' ::
        '1' :: '0' :: []) = true ∧
    isbn10ChecksumOk ('0' :: '1' :: '3' :: '4' :: '0' :: '9' :: '3' :: '4' ::
        '1' :: '0' :: []) = true ∧
    isbnRoundtrip ('0' :: '1' :: '3' :: '4' :: '0' :: '9' :: '3' :: '4' ::
        '1' :: '0' :: []) =
      .ok ('0' :: '1' :: '3' :: '4' :: '0' :: '9' :: '3' :: '4' ::
        '1' :: '0' :: []) :=
  ⟨by decide, by decide, isbn10_to13_to10_roundtrip _ (by decide) (by decide)⟩

/-- C5 counterexample: `ISBN.parse("0134093410")` and
`ISBN.parse("9780134093413")` hash alike (canonical ISBN-13 keys match) yet
are *not* equal objects: pydantic equality compares the `value` and `format`
fields, which differ. -/
theorem isbn_cross_format_not_equal_counterexample :
    isbnParse ('0' :: '1' :: '3' :: '4' :: '0' :: '9' :: '3' :: '4' ::
        '1' :: '0' :: []) =
      .ok ⟨'0' :: '1' :: '3' :: '4' :: '0' :: '9' :: '3' :: '4' ::
        '1' :: '0' :: [], .isbn10⟩ ∧
    isbnParse ('9' :: '7' :: '8' :: '0' :: '1' :: '3' :: '4' :: '0' :: '9' ::
        '3' :: '4' :: '1' :: '3' :: []) =
      .ok ⟨'9' :: '7' :: '8' :: '0' :: '1' :: '3' :: '4' :: '0' :: '9' ::
        '3' :: '4' :: '1' :: '3' :: [], .isbn13⟩ ∧
    isbnHashKey ⟨'0' :: '1' :: '3' :: '4' :: '0' :: '9' :: '3' :: '4' ::
        '1' :: '0' :: [], .isbn10⟩ =
      isbnHashKey ⟨'9' :: '7' :: '8' :: '0' :: '1' :: '3' :: '4' :: '0' ::
        '9' :: '3' :: '4' :: '1' :: '3' :: [], .isbn13⟩ ∧
    (⟨'0' :: '1' :: '3' :: '4' :: '0' :: '9' :: '3' :: '4' ::
        '1' :: '0' :: [], .isbn10⟩ : ISBN) ≠
      ⟨'9' :: '7' :: '8' :: '0' :: '1' :: '3' :: '4' :: '0' :: '9' ::
        '3' :: '4' :: '1' :: '3' :: [], .isbn13⟩ :=
  ⟨rfl, rfl, by decide, by decide⟩

/-- C5 (amended): two ISBN objects whose canonical ISBN-13 forms match are
always hash-equal, but they are equal objects only when their `value` and
`format` fields agree verbatim (pydantic field equality) — equality is not
implied by a matching canonical form. -/
theorem isbn_hash_by_canonical_form (i j i13 j13 : ISBN)
    (hi : toIsbn13 i = .ok i13) (hj : toIsbn13 j = .ok j13)
    (hv : i13.value = j13.value) :
    isbnHashKey i = isbnHashKey j ∧
      (i = j ↔ i.value = j.value ∧ i.format = j.format) := by
  refine ⟨?_, ?_, ?_⟩
  · unfold isbnHashKey
    rw [hi, hj]
    exact hv
  · intro e
    subst e
    exact ⟨rfl, rfl⟩
  · intro ⟨h1, h2⟩
    cases i
    cases j
    simp only at h1 h2
    subst h1
    subst h2
    rfl

/-- C5 witness: the amended statement applied to the concrete
`0134093410` / `9780134093413` pair. -/
theorem isbn_hash_by_canonical_form_witness :
    isbnHashKey ⟨'0' :: '1' :: '3' :: '4' :: '0' :: '9' :: '3' :: '4' ::
        '1' :: '0' :: [], .isbn10⟩ =
      isbnHashKey ⟨'9' :: '7' :: '8' :: '0' :: '1' :: '3' :: '4' :: '0' ::
        '9' :: '3' :: '4' :: '1' :: '3' :: [], .isbn13⟩ ∧
    ((⟨'0' :: '1' :: '3' :: '4' :: '0' :: '9' :: '3' :: '4' ::
        '1' :: '0' :: [], .isbn10⟩ : ISBN) =
        ⟨'9' :: '7' :: '8' :: '0' :: '1' :: '3' :: '4' :: '0' :: '9' ::
          '3' :: '4' :: '1' :: '3' :: [], .isbn13⟩ ↔
      ('0' :: '1' :: '3' :: '4' :: '0' :: '9' :: '3' :: '4' ::
        '1' :: '0' :: []) = ('9' :: '7' :: '8' :: '0' :: '1' :: '3' :: '4' ::
        '0' :: '9' :: '3' :: '4' :: '1' :: '3' :: []) ∧
      IsbnFormat.isbn10 = IsbnFormat.isbn13) :=
  isbn_hash_by_canonical_form _ _
    ⟨'9' :: '7' :: '8' :: '0' :: '1' :: '3' :: '4' :: '0' :: '9' ::
      '3' :: '4' :: '1' :: '3' :: [], .isbn13⟩
    ⟨'9' :: '7' :: '8' :: '0' :: '1' :: '3' :: '4' :: '0' :: '9' ::
      '3' :: '4' :: '1' :: '3' :: [], .isbn13⟩
    rfl rfl (by decide)

/-! ## DOI value object (`src/consearch/core/identifiers.py`, class `DOI`) -/

/-- `DOI`: the validated value string. -/
structure DOI where
  value : List Char
deriving DecidableEq, Repr

theorem length_dropWhile_le {α : Type} (p : α → Bool) (l : List α) :
    (l.dropWhile p).length ≤ l.length := by
  induction l with
  | nil => simp [List.dropWhile]
  | cons a l ih =>
    rw [List.dropWhile_cons]
    by_cases h : p a = true
    · simp only [h, if_true, List.length_cons]
      omega
    · simp [h]

/-- Tail of `DOI.DOI_PATTERN` after the leading digit run: matches
`\d*(\.\d+)*/[^\s]+$` as a left-to-right automaton.  `seen` records whether
at least one digit has been consumed since the last `.`.  The regex is
deterministic here: a group iteration can only start at `.` and the
terminating `/` is neither a digit nor `.`, so greedy matching coincides
with backtracking. -/
def doiGroups : Bool → List Char → Bool
  | _, [] => false
  | seen, c :: rest =>
    if c.isDigit then doiGroups true rest
    else if c = '.' then seen && doiGroups false rest
    else if c = '/' then seen && !rest.isEmpty && rest.all (fun x => !pyIsSpace x)
    else false

/-- `DOI.DOI_PATTERN` (`^10\.\d{4,}(?:\.\d+)*/[^\s]+$`). -/
def matchDoiPattern (s : List Char) : Bool :=
  match s with
  | a :: b :: c :: rest =>
    a = '1' && b = '0' && c = '.' &&
      decide (4 ≤ (rest.takeWhile Char.isDigit).length) &&
      doiGroups true (rest.dropWhile Char.isDigit)
  | _ => false

/-- The literal `https://doi.org/`. -/
def pfHttpsDoi : List Char :=
  'h' :: 't' :: 't' :: 'p' :: 's' :: ':' :: '/' :: '/' ::
    'd' :: 'o' :: 'i' :: '.' :: 'o' :: 'r' :: 'g' :: '/' :: []

/-- The literal `http://doi.org/`. -/
def pfHttpDoi : List Char :=
  'h' :: 't' :: 't' :: 'p' :: ':' :: '/' :: '/' ::
    'd' :: 'o' :: 'i' :: '.' :: 'o' :: 'r' :: 'g' :: '/' :: []

/-- The literal `https://dx.doi.org/`. -/
def pfHttpsDx : List Char :=
  'h' :: 't' :: 't' :: 'p' :: 's' :: ':' :: '/' :: '/' :: 'd' :: 'x' :: '.' ::
    'd' :: 'o' :: 'i' :: '.' :: 'o' :: 'r' :: 'g' :: '/' :: []

/-- The literal `http://dx.doi.org/`. -/
def pfHttpDx : List Char :=
  'h' :: 't' :: 't' :: 'p' :: ':' :: '/' :: '/' :: 'd' :: 'x' :: '.' ::
    'd' :: 'o' :: 'i' :: '.' :: 'o' :: 'r' :: 'g' :: '/' :: []

/-- The literal `doi.org/` (the split point of `v.split("doi.org/", 1)`). -/
def patDoiOrg : List Char :=
  'd' :: 'o' :: 'i' :: '.' :: 'o' :: 'r' :: 'g' :: '/' :: []

/-- The literal `dx.doi.org/`. -/
def patDxDoiOrg : List Char :=
  'd' :: 'x' :: '.' :: 'd' :: 'o' :: 'i' :: '.' :: 'o' :: 'r' :: 'g' :: '/' :: []

/-- The literal `doi:`. -/
def patDoiColon : List Char := 'd' :: 'o' :: 'i' :: ':' :: []

/-- `DOI.normalize_doi`: strip the exact-lowercase `doi.org` URL prefixes
(Python `str.startswith` is case-sensitive) and the case-insensitive `doi:`
prefix. -/
def normalizeDoi (v : List Char) : List Char :=
  let v1 := pyStrip v
  let v2 :=
    if startsWith pfHttpsDoi v1 || startsWith pfHttpDoi v1 then
      (afterFirst patDoiOrg v1).getD v1
    else if startsWith pfHttpsDx v1 || startsWith pfHttpDx v1 then
      (afterFirst patDxDoiOrg v1).getD v1
    else v1
  if startsWith patDoiColon (lowerStr v2) then pyStrip (v2.drop 4) else v2

/-- The `DOI(value=…)` constructor: `normalize_doi` then `validate_doi`. -/
def doiParse (v : List Char) : Except String DOI :=
  let value := normalizeDoi v
  if matchDoiPattern value then .ok ⟨value⟩
  else .error "Invalid DOI format"

theorem startsWith_append_self (p r : List Char) :
    startsWith p (p ++ r) = true := by
  induction p with
  | nil => rfl
  | cons c ps ih => simp [startsWith, ih]

theorem doiGroups_ne_nil {seen : Bool} {l : List Char}
    (h : doiGroups seen l = true) : l ≠ [] := by
  intro e
  subst e
  exact absurd h (by cases seen <;> decide)

theorem doiGroups_last :
    ∀ (l : List Char) (seen : Bool), doiGroups seen l = true →
      ∃ c, l.getLast? = some c ∧ pyIsSpace c = false := by
  intro l
  induction l with
  | nil =>
    intro seen h
    exact absurd h (by cases seen <;> decide)
  | cons c rest ih =>
    intro seen h
    rw [doiGroups] at h
    have tailcase : ∀ s : Bool, doiGroups s rest = true →
        ∃ d, (c :: rest).getLast? = some d ∧ pyIsSpace d = false := by
      intro s hs
      obtain ⟨d, hd, hns⟩ := ih s hs
      have hrne : rest ≠ [] := doiGroups_ne_nil hs
      rcases rest with _ | ⟨b, rest'⟩
      · exact absurd rfl hrne
      · exact ⟨d, by rw [List.getLast?_cons_cons]; exact hd, hns⟩
    by_cases hdig : c.isDigit = true
    · rw [if_pos hdig] at h
      exact tailcase true h
    · rw [if_neg hdig] at h
      by_cases hc : c = '.'
      · rw [if_pos hc, Bool.and_eq_true] at h
        exact tailcase false h.2
      · rw [if_neg hc] at h
        by_cases hs : c = '/'
        · rw [if_pos hs, Bool.and_eq_true, Bool.and_eq_true] at h
          obtain ⟨⟨_, hne⟩, hall⟩ := h
          have hrne : rest ≠ [] := by
            intro e
            rw [e] at hne
            exact absurd hne (by decide)
          obtain ⟨d, hd⟩ := Option.isSome_iff_exists.mp
            (List.getLast?_isSome.mpr hrne)
          refine ⟨d, ?_, ?_⟩
          · rcases rest with _ | ⟨b, rest'⟩
            · exact absurd rfl hrne
            · rw [List.getLast?_cons_cons]
              exact hd
          · have hmem : d ∈ rest := List.mem_of_mem_getLast? hd
            have := List.all_eq_true.mp hall d hmem
            simp only [Bool.not_eq_true'] at this
            exact this
        · rw [if_neg hs] at h
          exact absurd h (by decide)

/-- A string matching the DOI pattern starts with `1` and ends with a
non-whitespace character, so Python's `strip()` leaves it unchanged. -/
theorem matchDoi_shape {r : List Char} (h : matchDoiPattern r = true) :
    ∃ rest, r = '1' :: '0' :: '.' :: rest ∧
      ∃ c, r.getLast? = some c ∧ pyIsSpace c = false := by
  rcases r with _ | ⟨a, _ | ⟨b, _ | ⟨c, rest⟩⟩⟩
  · exact absurd h (by decide)
  · simp [matchDoiPattern] at h
  · simp [matchDoiPattern] at h
  · unfold matchDoiPattern at h
    simp only [Bool.and_eq_true, decide_eq_true_eq] at h
    obtain ⟨⟨⟨⟨ha, hb⟩, hc⟩, hds⟩, htail⟩ := h
    subst ha
    subst hb
    subst hc
    refine ⟨rest, rfl, ?_⟩
    obtain ⟨d, hd, hns⟩ := doiGroups_last _ _ htail
    have hrne : rest.dropWhile Char.isDigit ≠ [] := doiGroups_ne_nil htail
    have hsplit : rest.takeWhile Char.isDigit ++ rest.dropWhile Char.isDigit
        = rest := List.takeWhile_append_dropWhile Char.isDigit rest
    have hrest : rest.getLast? = some d := by
      rw [← hsplit, List.getLast?_append_of_ne_nil _ hrne]
      exact hd
    have hrestne : rest ≠ [] := by
      intro e
      subst e
      exact hrne rfl
    refine ⟨d, ?_, hns⟩
    rcases rest with _ | ⟨x, rest'⟩
    · exact absurd rfl hrestne
    · rw [List.getLast?_cons_cons, List.getLast?_cons_cons]
      exact hrest

/-- `strip()` leaves a string whose first and last characters are
non-whitespace unchanged. -/
theorem pyStrip_eq_self {l : List Char}
    (h1 : ∀ c, l.head? = some c → pyIsSpace c = false)
    (h2 : ∀ c, l.getLast? = some c → pyIsSpace c = false) :
    pyStrip l = l := by
  rcases l with _ | ⟨c, t⟩
  · rfl
  · have hc : pyIsSpace c = false := h1 c rfl
    unfold pyStrip pyLStrip pyRStrip
    rw [List.dropWhile_cons, if_neg (by simp [hc])]
    obtain ⟨d, hd⟩ := Option.isSome_iff_exists.mp
      (List.getLast?_isSome.mpr (by simp : (c :: t : List Char) ≠ []))
    have hdns : pyIsSpace d = false := h2 d hd
    have hrev : (c :: t).reverse.head? = some d := by
      rw [List.head?_reverse]
      exact hd
    rcases hrevc : (c :: t).reverse with _ | ⟨e, rest⟩
    · simp [hrevc] at hrev
    · rw [hrevc] at hrev
      simp only [List.head?_cons, Option.some.injEq] at hrev
      subst hrev
      rw [List.dropWhile_cons, if_neg (by simp [hdns]), ← hrevc,
        List.reverse_reverse]

theorem doiParse_of_normalize {v r : List Char} (hn : normalizeDoi v = r)
    (hr : matchDoiPattern r = true) : doiParse v = .ok ⟨r⟩ := by
  unfold doiParse
  rw [hn]
  simp [hr]

/-- C6 (amended): for each of the four `doi.org` URL prefixes written
exactly in lowercase, and for the `doi:` prefix in any letter case,
`DOI` parsing strips the prefix and accepts a remainder matching
`^10\.\d{4,}(\.\d+)*/\S+$`. -/
theorem doiParse_strips_prefixes (r : List Char)
    (hr : matchDoiPattern r = true) :
    doiParse (pfHttpsDoi ++ r) = .ok ⟨r⟩ ∧
    doiParse (pfHttpDoi ++ r) = .ok ⟨r⟩ ∧
    doiParse (pfHttpsDx ++ r) = .ok ⟨r⟩ ∧
    doiParse (pfHttpDx ++ r) = .ok ⟨r⟩ ∧
    doiParse (patDoiColon ++ r) = .ok ⟨r⟩ ∧
    doiParse (('D' :: 'O' :: 'I' :: ':' :: []) ++ r) = .ok ⟨r⟩ := by
  obtain ⟨rest, hshape, d, hlast, hdns⟩ := matchDoi_shape hr
  subst hshape
  have hstrip : ∀ p : List Char, p ≠ [] →
      (∀ c, p.head? = some c → pyIsSpace c = false) →
      pyStrip (p ++ '1' :: '0' :: '.' :: rest) =
        p ++ '1' :: '0' :: '.' :: rest := by
    intro p hp hphead
    refine pyStrip_eq_self ?_ ?_
    · intro c hc
      rcases p with _ | ⟨x, p'⟩
      · exact absurd rfl hp
      · simp only [List.cons_append, List.head?_cons, Option.some.injEq] at hc
        subst hc
        exact hphead x rfl
    · intro c hc
      rw [List.getLast?_append_of_ne_nil p (by simp)] at hc
      rw [hc] at hlast
      simp only [Option.some.injEq] at hlast
      subst hlast
      exact hdns
  have hnodoi : startsWith patDoiColon
      (lowerStr ('1' :: '0' :: '.' :: rest)) = false := by
    simp [lowerStr, patDoiColon, startsWith, pyToLower]
  have hstrip1 : pyStrip ('1' :: '0' :: '.' :: rest) =
      '1' :: '0' :: '.' :: rest := by
    refine pyStrip_eq_self ?_ ?_
    · intro c hc
      simp only [List.head?_cons, Option.some.injEq] at hc
      subst hc
      decide
    · intro c hc
      rw [hc] at hlast
      simp only [Option.some.injEq] at hlast
      subst hlast
      exact hdns
  refine ⟨?_, ?_, ?_, ?_, ?_, ?_⟩
  · refine doiParse_of_normalize ?_ hr
    unfold normalizeDoi
    rw [hstrip _ (by simp [pfHttpsDoi]) (by intro c hc; simp [pfHttpsDoi] at hc; subst hc; decide)]
    simp [pfHttpsDoi, pfHttpDoi, pfHttpsDx, pfHttpDx, patDoiOrg, patDoiColon,
      startsWith, afterFirst, lowerStr, pyToLower, hnodoi]
  · refine doiParse_of_normalize ?_ hr
    unfold normalizeDoi
    rw [hstrip _ (by simp [pfHttpDoi]) (by intro c hc; simp [pfHttpDoi] at hc; subst hc; decide)]
    simp [pfHttpsDoi, pfHttpDoi, pfHttpsDx, pfHttpDx, patDoiOrg, patDoiColon,
      startsWith, afterFirst, lowerStr, pyToLower, hnodoi]
  · refine doiParse_of_normalize ?_ hr
    unfold normalizeDoi
    rw [hstrip _ (by simp [pfHttpsDx]) (by intro c hc; simp [pfHttpsDx] at hc; subst hc; decide)]
    simp [pfHttpsDoi, pfHttpDoi, pfHttpsDx, pfHttpDx, patDxDoiOrg, patDoiColon,
      startsWith, afterFirst, lowerStr, pyToLower, hnodoi]
  · refine doiParse_of_normalize ?_ hr
    unfold normalizeDoi
    rw [hstrip _ (by simp [pfHttpDx]) (by intro c hc; simp [pfHttpDx] at hc; subst hc; decide)]
    simp [pfHttpsDoi, pfHttpDoi, pfHttpsDx, pfHttpDx, patDxDoiOrg, patDoiColon,
      startsWith, afterFirst, lowerStr, pyToLower, hnodoi]
  · refine doiParse_of_normalize ?_ hr
    unfold normalizeDoi
    rw [hstrip _ (by simp [patDoiColon]) (by intro c hc; simp [patDoiColon] at hc; subst hc; decide)]
    simp only [patDoiColon, pfHttpsDoi, pfHttpDoi, pfHttpsDx, pfHttpDx,
      List.cons_append, startsWith, lowerStr, List.map_cons]
    simp [pyToLower, List.drop, hstrip1]
  · refine doiParse_of_normalize ?_ hr
    unfold normalizeDoi
    rw [hstrip _ (by simp) (by intro c hc; simp at hc; subst hc; decide)]
    simp only [patDoiColon, pfHttpsDoi, pfHttpDoi, pfHttpsDx, pfHttpDx,
      List.cons_append, startsWith, lowerStr, List.map_cons]
    simp [pyToLower, List.drop, hstrip1]

/-- C6 counterexample: the prefix match is *not* case-insensitive for URL
prefixes — `HTTPS://doi.org/10.1000/xyz` begins with a case variant of
`https://doi.org/` and its remainder `10.1000/xyz` is pattern-valid, yet
parsing fails, while the exact-lowercase prefix succeeds. -/
theorem doi_uppercase_url_counterexample :
    matchDoiPattern ('1' :: '0' :: '.' :: '1' :: '0' :: '0' :: '0' :: '/' ::
      'x' :: 'y' :: 'z' :: []) = true ∧
    doiParse ('H' :: 'T' :: 'T' :: 'P' :: 'S' :: ':' :: '/' :: '/' ::
        'd' :: 'o' :: 'i' :: '.' :: 'o' :: 'r' :: 'g' :: '/' :: '1' :: '0' ::
        '.' :: '1' :: '0' :: '0' :: '0' :: '/' :: 'x' :: 'y' :: 'z' :: []) =
      .error "Invalid DOI format" ∧
    doiParse ('h' :: 't' :: 't' :: 'p' :: 's' :: ':' :: '/' :: '/' ::
        'd' :: 'o' :: 'i' :: '.' :: 'o' :: 'r' :: 'g' :: '/' :: '1' :: '0' ::
        '.' :: '1' :: '0' :: '0' :: '0' :: '/' :: 'x' :: 'y' :: 'z' :: []) =
      .ok ⟨'1' :: '0' :: '.' :: '1' :: '0' :: '0' :: '0' :: '/' ::
        'x' :: 'y' :: 'z' :: []⟩ :=
  ⟨by decide, rfl, rfl⟩

/-- C6 witness: the amended prefix-stripping statement at
`10.1000/xyz`. -/
theorem doiParse_strips_prefixes_witness :
    matchDoiPattern ('1' :: '0' :: '.' :: '1' :: '0' :: '0' :: '0' :: '/' ::
      'x' :: 'y' :: 'z' :: []) = true ∧
    doiParse (pfHttpsDoi ++ '1' :: '0' :: '.' :: '1' :: '0' :: '0' :: '0' ::
        '/' :: 'x' :: 'y' :: 'z' :: []) =
      .ok ⟨'1' :: '0' :: '.' :: '1' :: '0' :: '0' :: '0' :: '/' ::
        'x' :: 'y' :: 'z' :: []⟩ :=
  ⟨by decide,
    (doiParse_strips_prefixes _ (by decide)).1⟩

/-! ## arXiv value object (`src/consearch/core/identifiers.py`,
class `ArXivID`) -/

inductive ArxivFormat where
  | old
  | new
deriving DecidableEq, Repr

/-- `ArXivID`: normalized value plus format tag. -/
structure ArXivID where
  value : List Char
  format : ArxivFormat
deriving DecidableEq, Repr

/-- `ArXivID.OLD_PATTERN` (`^[a-z-]+/\d{7}$`).  `[a-z-]+` is greedy and `/`
is outside the class, so splitting at the first non-class character is
faithful. -/
def matchArxivOld (s : List Char) : Bool :=
  let cls : Char → Bool := fun c => ('a' ≤ c && c ≤ 'z') || c = '-'
  let a := s.takeWhile cls
  match s.dropWhile cls with
  | c :: b => !a.isEmpty && c = '/' && decide (b.length = 7) && b.all Char.isDigit
  | [] => false

/-- `ArXivID.NEW_PATTERN` (`^\d{4}\.\d{4,5}(v\d+)?$`).  `\d{4,5}` is greedy;
neither `v` nor end-of-string is a digit, so taking the maximal digit run
and checking its length is faithful. -/
def matchArxivNew (s : List Char) : Bool :=
  match s with
  | a :: b :: c :: d :: e :: rest =>
    a.isDigit && b.isDigit && c.isDigit && d.isDigit && e = '.' &&
      (let ds := rest.takeWhile Char.isDigit
       (decide (ds.length = 4) || decide (ds.length = 5)) &&
        (match rest.dropWhile Char.isDigit with
         | [] => true
         | v :: vs => v = 'v' && !vs.isEmpty && vs.all Char.isDigit))
  | _ => false

/-- The literal `https://arxiv.org/abs/`. -/
def pfArxAbsS : List Char :=
  'h' :: 't' :: 't' :: 'p' :: 's' :: ':' :: '/' :: '/' :: 'a' :: 'r' :: 'x' ::
    'i' :: 'v' :: '.' :: 'o' :: 'r' :: 'g' :: '/' :: 'a' :: 'b' :: 's' :: '/' :: []

/-- The literal `http://arxiv.org/abs/`. -/
def pfArxAbs : List Char :=
  'h' :: 't' :: 't' :: 'p' :: ':' :: '/' :: '/' :: 'a' :: 'r' :: 'x' ::
    'i' :: 'v' :: '.' :: 'o' :: 'r' :: 'g' :: '/' :: 'a' :: 'b' :: 's' :: '/' :: []

/-- The literal `https://arxiv.org/pdf/`. -/
def pfArxPdfS : List Char :=
  'h' :: 't' :: 't' :: 'p' :: 's' :: ':' :: '/' :: '/' :: 'a' :: 'r' :: 'x' ::
    'i' :: 'v' :: '.' :: 'o' :: 'r' :: 'g' :: '/' :: 'p' :: 'd' :: 'f' :: '/' :: []

/-- The literal `http://arxiv.org/pdf/`. -/
def pfArxPdf : List Char :=
  'h' :: 't' :: 't' :: 'p' :: ':' :: '/' :: '/' :: 'a' :: 'r' :: 'x' ::
    'i' :: 'v' :: '.' :: 'o' :: 'r' :: 'g' :: '/' :: 'p' :: 'd' :: 'f' :: '/' :: []

/-- The literal `arxiv:`. -/
def patArxivColon : List Char := 'a' :: 'r' :: 'x' :: 'i' :: 'v' :: ':' :: []

/-- The URL-prefix loop of `ArXivID.normalize_arxiv` / `ArXivID.parse`:
strip the first matching `arxiv.org` prefix and then `rstrip(".pdf")`
(a character *set*, per Python semantics). -/
def stripArxivUrl (v : List Char) : List Char :=
  if startsWith pfArxAbsS v then
    pyRStripSet ('.' :: 'p' :: 'd' :: 'f' :: []) (v.drop pfArxAbsS.length)
  else if startsWith pfArxAbs v then
    pyRStripSet ('.' :: 'p' :: 'd' :: 'f' :: []) (v.drop pfArxAbs.length)
  else if startsWith pfArxPdfS v then
    pyRStripSet ('.' :: 'p' :: 'd' :: 'f' :: []) (v.drop pfArxPdfS.length)
  else if startsWith pfArxPdf v then
    pyRStripSet ('.' :: 'p' :: 'd' :: 'f' :: []) (v.drop pfArxPdf.length)
  else v

/-- `ArXivID.normalize_arxiv` (also the inline normalization in
`ArXivID.parse`): strip, URL prefixes, then the case-insensitive `arxiv:`
prefix. -/
def arxivNormalize (v : List Char) : List Char :=
  let v1 := pyStrip v
  let v2 := stripArxivUrl v1
  if startsWith patArxivColon (lowerStr v2) then pyStrip (v2.drop 6) else v2

/-- The `ArXivID(value=…, format=…)` constructor: the `normalize_arxiv`
field validator followed by `validate_arxiv`. -/
def arxivMk (v : List Char) (fmt : ArxivFormat) : Except String ArXivID :=
  let value := arxivNormalize v
  match fmt with
  | .old =>
    if matchArxivOld value then .ok ⟨value, .old⟩
    else .error "Invalid old arXiv format"
  | .new =>
    if matchArxivNew value then .ok ⟨value, .new⟩
    else .error "Invalid new arXiv format"

/-- `ArXivID.parse`: normalize, then choose old format (lowercasing the
whole string) when a `/` is present, else new format. -/
def arxivParse (v : List Char) : Except String ArXivID :=
  let normalized := arxivNormalize v
  if normalized.contains '/' then arxivMk (lowerStr normalized) .old
  else arxivMk normalized .new

/-- `IdentifierDetector.ARXIV_OLD_ARCHIVES`: the fixed whitelist of legacy
arXiv archive names (used only by the *detector's* `ARXIV_PATTERN`). -/
def arxivOldArchives : List (List Char) :=
  ["acc-phys", "adap-org", "alg-geom", "ao-sci", "astro-ph", "atom-ph",
   "bayes-an", "chao-dyn", "chem-ph", "cmp-lg", "comp-gas", "cond-mat", "cs",
   "dg-ga", "funct-an", "gr-qc", "hep-ex", "hep-lat", "hep-ph", "hep-th",
   "math", "math-ph", "mtrl-th", "nlin", "nucl-ex", "nucl-th", "patt-sol",
   "physics", "plasm-ph", "q-alg", "q-bio", "quant-ph", "solv-int", "stat",
   "supr-con"].map String.data

/-- C7 counterexample: `ArXivID.parse` accepts `zzz/1234567` as an
old-format ID although `zzz` is not in the legacy-archive whitelist — the
whitelist is not consulted by `parse` at all. -/
theorem arxiv_parse_no_whitelist_counterexample :
    arxivParse ('z' :: 'z' :: 'z' :: '/' :: '1' :: '2' :: '3' :: '4' :: '5' ::
        '6' :: '7' :: []) =
      .ok ⟨'z' :: 'z' :: 'z' :: '/' :: '1' :: '2' :: '3' :: '4' :: '5' ::
        '6' :: '7' :: [], .old⟩ ∧
    ('z' :: 'z' :: 'z' :: []) ∉ arxivOldArchives :=
  ⟨rfl, by decide⟩

/-- C7 (amended): for slash-containing input that the normalizer leaves
unchanged, `ArXivID.parse` classifies it as an old-format arXiv ID exactly
when its lowercased form matches `^[a-z-]+/\d{7}$` — with no archive
whitelist; the whitelist of legacy archive names lives only in the
detector's `ARXIV_PATTERN`. -/
theorem arxivParse_old_pattern_only (s : List Char)
    (h1 : arxivNormalize s = s)
    (h2 : arxivNormalize (lowerStr s) = lowerStr s)
    (hslash : s.contains '/' = true) :
    arxivParse s = (if matchArxivOld (lowerStr s) = true
      then .ok ⟨lowerStr s, .old⟩
      else .error "Invalid old arXiv format") := by
  unfold arxivParse
  simp only [h1]
  rw [if_pos hslash]
  unfold arxivMk
  simp only [h2]

/-- C7 witness: the amended statement at `foo-bar/7654321`, an archive name
outside the whitelist that `parse` nevertheless accepts. -/
theorem arxivParse_old_pattern_only_witness :
    arxivParse ('f' :: 'o' :: 'o' :: '-' :: 'b' :: 'a' :: 'r' :: '/' :: '7' ::
        '6' :: '5' :: '4' :: '3' :: '2' :: '1' :: []) =
      (if matchArxivOld (lowerStr ('f' :: 'o' :: 'o' :: '-' :: 'b' :: 'a' ::
          'r' :: '/' :: '7' :: '6' :: '5' :: '4' :: '3' :: '2' :: '1' :: [])) = true
        then .ok ⟨lowerStr ('f' :: 'o' :: 'o' :: '-' :: 'b' :: 'a' :: 'r' ::
          '/' :: '7' :: '6' :: '5' :: '4' :: '3' :: '2' :: '1' :: []), .old⟩
        else .error "Invalid old arXiv format") :=
  arxivParse_old_pattern_only _ (by decide) (by decide) (by decide)

/-! ## Input classifier (`src/consearch/detection/identifier.py`,
class `IdentifierDetector`) -/

/-- `core/types.py`, `InputType`. -/
inductive InputType where
  | doi
  | isbn_10
  | isbn_13
  | arxiv
  | pmid
  | url
  | title
  | citation
  | unknown
deriving DecidableEq, Repr

/-- The `ISBN | DOI | ArXivID` union held by
`DetectionResult.parsed_identifier`. -/
inductive ParsedId where
  | isbn (i : ISBN)
  | doi (d : DOI)
  | arxiv (a : ArXivID)
deriving DecidableEq, Repr

/-- `DetectionResult` (confidence modelled in `ℚ`). -/
structure DetectionResult where
  input_type : InputType
  confidence : ℚ
  normalized_value : Option (List Char) := none
  parsed_identifier : Option ParsedId := none
deriving DecidableEq, Repr

/-- Consume the detector DOI core `10\.\d{4,}(?:\.\d+)*/[^\s]+` from the
start of `t`, returning the consumed text after the leading digit run (same
automaton as `doiGroups`, but collecting the match). -/
def doiCoreCons : Bool → List Char → Option (List Char)
  | _, [] => none
  | seen, c :: rest =>
    if c.isDigit then (doiCoreCons true rest).map (c :: ·)
    else if c = '.' then
      if seen then (doiCoreCons false rest).map (c :: ·) else none
    else if c = '/' then
      if seen then
        let suf := rest.takeWhile (fun x => !pyIsSpace x)
        if suf.isEmpty then none else some (c :: suf)
      else none
    else none

/-- Match the detector DOI core at the start of `t` and return the captured
group text. -/
def doiCoreAt (t : List Char) : Option (List Char) :=
  match t with
  | a :: b :: c :: rest =>
    if a = '1' && b = '0' && c = '.' then
      let ds := rest.takeWhile Char.isDigit
      if 4 ≤ ds.length then
        (doiCoreCons true (rest.dropWhile Char.isDigit)).map
          (fun g => a :: b :: c :: (ds ++ g))
      else none
    else none
  | _ => none

/-- The URL alternatives of the detector DOI pattern
(`https?://(?:dx\.)?doi\.org/`), in the engine's preference order. -/
def doiUrlPres : List (List Char) := [pfHttpsDx, pfHttpsDoi, pfHttpDx, pfHttpDoi]

/-- One attempt of `IdentifierDetector.DOI_PATTERN` at a fixed position:
optional URL prefix, or `doi:?\s*`, or nothing, then the core (all
case-insensitive). -/
def doiTryAt (t : List Char) : Option (List Char) :=
  (doiUrlPres.findSome? fun p =>
    if startsWithCI p t then doiCoreAt (t.drop p.length) else none) <|>
  (if startsWithCI ('d' :: 'o' :: 'i' :: []) t then
    let t1 := t.drop 3
    let t2 := match t1 with
      | ':' :: r => r
      | _ => t1
    doiCoreAt (t2.dropWhile pyIsSpace)
   else none) <|>
  doiCoreAt t

/-- `IdentifierDetector.DOI_PATTERN.search`: leftmost match, returning
group 1. -/
def doiSearch (q : List Char) : Option (List Char) :=
  q.tails.findSome? doiTryAt

/-- `IdentifierDetector._try_doi`. -/
def tryDoi (q : List Char) : Option DetectionResult :=
  match doiSearch q with
  | some g =>
    match doiParse g with
    | .ok parsed => some ⟨.doi, 95/100, some parsed.value, some (.doi parsed)⟩
    | .error _ => none
  | none => none

/-- The new-format alternative `\d{4}\.\d{4,5}(?:v\d+)?` of the detector
arXiv pattern at a fixed position (case-insensitive `v`), returning the
captured text. -/
def arxivNewAt (t : List Char) : Option (List Char) :=
  match t with
  | a :: b :: c :: d :: e :: rest =>
    if a.isDigit && b.isDigit && c.isDigit && d.isDigit && e = '.' then
      let ds := rest.takeWhile Char.isDigit
      if 4 ≤ ds.length then
        let k := min ds.length 5
        let after := rest.drop k
        let core := a :: b :: c :: d :: e :: rest.take k
        match after with
        | v :: vs =>
          if v = 'v' || v = 'V' then
            let vds := vs.takeWhile Char.isDigit
            if vds.isEmpty then some core else some (core ++ v :: vds)
          else some core
        | [] => some core
      else none
    else none
  | _ => none

/-- The old-format alternative `(?:acc-phys|…)/\d{7}` of the detector arXiv
pattern at a fixed position: the archive alternation is tried in list order
(case-insensitively), each requiring `/` plus at least seven digits. -/
def arxivOldAt (t : List Char) : Option (List Char) :=
  arxivOldArchives.findSome? fun ar =>
    if startsWithCI ar t then
      match t.drop ar.length with
      | sl :: rest2 =>
        if sl = '/' && 7 ≤ (rest2.takeWhile Char.isDigit).length then
          some (t.take ar.length ++ sl :: rest2.take 7)
        else none
      | [] => none
    else none

/-- The core group of the detector arXiv pattern: new form, else old form. -/
def arxivCoreAt (t : List Char) : Option (List Char) :=
  arxivNewAt t <|> arxivOldAt t

/-- The URL alternatives of the detector arXiv pattern
(`https?://arxiv\.org/(?:abs|pdf)/`), in the engine's preference order. -/
def arxivUrlPres : List (List Char) := [pfArxAbsS, pfArxPdfS, pfArxAbs, pfArxPdf]

/-- One attempt of `IdentifierDetector.ARXIV_PATTERN` at a fixed position. -/
def arxivTryAt (t : List Char) : Option (List Char) :=
  (arxivUrlPres.findSome? fun p =>
    if startsWithCI p t then arxivCoreAt (t.drop p.length) else none) <|>
  (if startsWithCI ('a' :: 'r' :: 'x' :: 'i' :: 'v' :: []) t then
    let t1 := t.drop 5
    let t2 := match t1 with
      | ':' :: r => r
      | _ => t1
    arxivCoreAt (t2.dropWhile pyIsSpace)
   else none) <|>
  arxivCoreAt t

/-- `IdentifierDetector.ARXIV_PATTERN.search`: leftmost match, group 1. -/
def arxivSearch (q : List Char) : Option (List Char) :=
  q.tails.findSome? arxivTryAt

/-- `IdentifierDetector._try_arxiv`. -/
def tryArxiv (q : List Char) : Option DetectionResult :=
  match arxivSearch q with
  | some g =>
    match arxivParse g with
    | .ok parsed => some ⟨.arxiv, 95/100, some parsed.value, some (.arxiv parsed)⟩
    | .error _ => none
  | none => none

/-- `[\dX]` under `re.IGNORECASE`: digits, `X` or `x`. -/
def isbnBodyChar (c : Char) : Bool := c.isDigit || c = 'X' || c = 'x'

/-- `[-\s]`: the optional separator inside the ISBN body. -/
def isbnSepChar (c : Char) : Bool := c = '-' || pyIsSpace c

/-- `[\dX]$`: exactly one body character remains. -/
def isbnFinal (s : List Char) : Bool :=
  match s with
  | [c] => isbnBodyChar c
  | _ => false

/-- `([\dX][-\s]?){lo,hi}[\dX]$`: between `lo` and `hi` further groups, each
a body character with an optional separator, then the final body character.
The group count is the regex's only true choice point and is enumerated with
`||`; the separator is forced, since the next element always starts with a
body character. -/
def isbnBody (s : List Char) : Nat → Nat → Bool
  | lo, 0 => decide (lo = 0) && isbnFinal s
  | lo, hi + 1 =>
    (decide (lo = 0) && isbnFinal s) ||
    (match s with
     | c :: rest =>
       isbnBodyChar c &&
         (let rest' := match rest with
           | d :: r2 => if isbnSepChar d then r2 else rest
           | [] => rest
          isbnBody rest' (lo - 1) hi)
     | [] => false)

/-- `(97[89][-\s]?)?` then the body: both choices of the optional prefix
group. -/
def isbnBody978 (r : List Char) : Bool :=
  isbnBody r 9 12 ||
  (match r with
   | a :: b :: c :: rest =>
     a = '9' && b = '7' && (c = '8' || c = '9') &&
       (let rest' := match rest with
         | d :: r2 => if isbnSepChar d then r2 else rest
         | [] => rest
        isbnBody rest' 9 12)
   | _ => false)

/-- `IdentifierDetector.ISBN_PATTERN.match` (anchored both ends): optional
`ISBN`/`ISBN-10`/`ISBN-13` tag with `[:\s]*`, optional `97[89]` group, then
the separated body. -/
def matchIsbnShape (q : List Char) : Bool :=
  isbnBody978 q ||
  (if startsWithCI ('i' :: 's' :: 'b' :: 'n' :: []) q then
    let r := q.drop 4
    let after := fun (x : List Char) =>
      isbnBody978 (x.dropWhile (fun c => c = ':' || pyIsSpace c))
    after r ||
      (startsWithCI ('-' :: '1' :: '0' :: []) r && after (r.drop 3)) ||
      (startsWithCI ('-' :: '1' :: '3' :: []) r && after (r.drop 3)) ||
      (startsWithCI ('1' :: '0' :: []) r && after (r.drop 2)) ||
      (startsWithCI ('1' :: '3' :: []) r && after (r.drop 2))
   else false)

/-- The `re.sub(r"^ISBN(?:-?(?:10|13))?[:\s]*", "", query)` step of
`_try_isbn`, with the regex engine's alternative preference made explicit. -/
def stripIsbnTag (q : List Char) : List Char :=
  if startsWithCI ('i' :: 's' :: 'b' :: 'n' :: []) q then
    let r := q.drop 4
    let r2 :=
      if startsWithCI ('-' :: '1' :: '0' :: []) r then r.drop 3
      else if startsWithCI ('-' :: '1' :: '3' :: []) r then r.drop 3
      else if startsWithCI ('1' :: '0' :: []) r then r.drop 2
      else if startsWithCI ('1' :: '3' :: []) r then r.drop 2
      else r
    r2.dropWhile (fun c => c = ':' || pyIsSpace c)
  else q

/-- `IdentifierDetector._try_isbn`. -/
def tryIsbn (q : List Char) : Option DetectionResult :=
  if matchIsbnShape q then
    let isbnPart := stripIsbnTag q
    let normalized := upperStr (isbnPart.filter isbnBodyChar)
    match isbnParse normalized with
    | .ok parsed =>
      some ⟨(if parsed.format = .isbn10 then .isbn_10 else .isbn_13), 95/100,
        some parsed.value, some (.isbn parsed)⟩
    | .error _ =>
      if normalized.length = 10 ∨ normalized.length = 13 then
        some ⟨(if normalized.length = 13 then .isbn_13 else .isbn_10), 1/2,
          some normalized, none⟩
      else none
  else none

/-- `\d{7,8}$` for the PMID pattern (anchored, so a length check). -/
def pmidDigits (r : List Char) : Option (List Char) :=
  if r.all Char.isDigit && (decide (r.length = 7) || decide (r.length = 8)) then
    some r
  else none

/-- `IdentifierDetector._try_pmid` (`^(?:PMID[:\s]*)?(\d{7,8})$`). -/
def tryPmid (q : List Char) : Option DetectionResult :=
  match
    (if startsWithCI ('p' :: 'm' :: 'i' :: 'd' :: []) q then
      pmidDigits ((q.drop 4).dropWhile (fun c => c = ':' || pyIsSpace c))
     else none) <|> pmidDigits q with
  | some v => some ⟨.pmid, 9/10, some v, none⟩
  | none => none

/-- Characters ending the network-location part in `urlparse`. -/
def netlocEnd (c : Char) : Bool := c = '/' || c = '?' || c = '#'

/-- Characters ending the path part in `urlparse`. -/
def pathEnd (c : Char) : Bool := c = '?' || c = '#'

/-- The lazy capture of `/(?:abs|pdf)/(.+?)(?:\.pdf)?$` once the marker has
been consumed: the shortest non-empty prefix whose remainder is empty or
`.pdf` — i.e. drop one trailing `.pdf` when possible. -/
def arxUrlCapture (t : List Char) : Option (List Char) :=
  if 5 ≤ t.length &&
      startsWith ('.' :: 'p' :: 'd' :: 'f' :: []) (t.drop (t.length - 4)) then
    some (t.take (t.length - 4))
  else if t.isEmpty then none
  else some t

/-- `re.search(r"/(?:abs|pdf)/(.+?)(?:\.pdf)?$", path)` (case-sensitive):
scan for the leftmost marker whose suffix yields a capture. -/
def arxUrlScan : List Char → Option (List Char)
  | [] => none
  | c :: rest =>
    (if startsWith ('/' :: 'a' :: 'b' :: 's' :: '/' :: []) (c :: rest) then
      arxUrlCapture ((c :: rest).drop 5)
     else if startsWith ('/' :: 'p' :: 'd' :: 'f' :: '/' :: []) (c :: rest) then
      arxUrlCapture ((c :: rest).drop 5)
     else none) <|>
    arxUrlScan rest

/-- One attempt of `re.search(r"/(\d{7,8})(?:/|$)", path)` at a fixed
position: `/`, then greedily eight (else seven) digits, then `/` or the
end. -/
def pmidUrlAt (t : List Char) : Option (List Char) :=
  match t with
  | '/' :: u =>
    let ds := u.takeWhile Char.isDigit
    if ds.length = 8 &&
        (match u.drop 8 with
         | [] => true
         | c :: _ => c = '/') then
      some (u.take 8)
    else if ds.length = 7 &&
        (match u.drop 7 with
         | [] => true
         | c :: _ => c = '/') then
      some (u.take 7)
    else none
  | _ => none

/-- `re.search(r"/(\d{7,8})(?:/|$)", path)`: leftmost match, group 1. -/
def pmidUrlScan (path : List Char) : Option (List Char) :=
  path.tails.findSome? pmidUrlAt

/-- `IdentifierDetector.URL_PATTERN.match` (`^https?://`,
case-insensitive). -/
def matchUrlStart (q : List Char) : Bool :=
  startsWithCI ('h' :: 't' :: 't' :: 'p' :: ':' :: '/' :: '/' :: []) q ||
  startsWithCI ('h' :: 't' :: 't' :: 'p' :: 's' :: ':' :: '/' :: '/' :: []) q

/-- The `doi.org` branch of `_try_url`. -/
def urlDoiStep (host path : List Char) : Option DetectionResult :=
  if containsSub ('d' :: 'o' :: 'i' :: '.' :: 'o' :: 'r' :: 'g' :: []) host then
    match doiParse (path.dropWhile (· = '/')) with
    | .ok parsed => some ⟨.doi, 98/100, some parsed.value, some (.doi parsed)⟩
    | .error _ => none
  else none

/-- The `arxiv.org` branch of `_try_url`. -/
def urlArxivStep (host path : List Char) : Option DetectionResult :=
  if containsSub ('a' :: 'r' :: 'x' :: 'i' :: 'v' :: '.' :: 'o' :: 'r' ::
      'g' :: []) host then
    match arxUrlScan path with
    | some captured =>
      match arxivParse captured with
      | .ok parsed =>
        some ⟨.arxiv, 98/100, some parsed.value, some (.arxiv parsed)⟩
      | .error _ => none
    | none => none
  else none

/-- The PubMed-host branch of `_try_url`. -/
def urlPmidStep (host path : List Char) : Option DetectionResult :=
  if containsSub ('p' :: 'u' :: 'b' :: 'm' :: 'e' :: 'd' :: []) host ||
      containsSub ('n' :: 'c' :: 'b' :: 'i' :: '.' :: 'n' :: 'l' :: 'm' ::
        '.' :: 'n' :: 'i' :: 'h' :: '.' :: 'g' :: 'o' :: 'v' :: []) host then
    match pmidUrlScan path with
    | some pmid => some ⟨.pmid, 95/100, some pmid, none⟩
    | none => none
  else none

/-- `IdentifierDetector._try_url`: parse the URL into host and path, then
special-case `doi.org`, `arxiv.org` and the PubMed hosts, falling back to a
generic URL classification. -/
def tryUrl (q : List Char) : Option DetectionResult :=
  if matchUrlStart q then
    let afterScheme :=
      if startsWithCI ('h' :: 't' :: 't' :: 'p' :: 's' :: ':' :: '/' :: '/' :: []) q
      then q.drop 8 else q.drop 7
    let host := lowerStr (afterScheme.takeWhile (fun c => !netlocEnd c))
    let path := (afterScheme.dropWhile (fun c => !netlocEnd c)).takeWhile
      (fun c => !pathEnd c)
    some ((urlDoiStep host path <|> urlArxivStep host path <|>
      urlPmidStep host path).getD ⟨.url, 6/10, some q, none⟩)
  else none

/-- `IdentifierDetector.CITATION_INDICATORS`. -/
def citationIndicators : List (List Char) :=
  ["et al", "pp.", "vol.", "journal", "proceedings", "conference",
   "published", "press"].map String.data

/-- One attempt of `re.search(r"[,\(]\s*(?:19|20)\d{2}\s*[\),]?", q)` at a
fixed position (the trailing `\s*[\),]?` can always match empty). -/
def yearAt (t : List Char) : Bool :=
  match t with
  | c :: rest =>
    (c = ',' || c = '(') &&
      (match rest.dropWhile pyIsSpace with
       | a :: b :: c2 :: d :: _ =>
         ((a = '1' && b = '9') || (a = '2' && b = '0')) &&
           c2.isDigit && d.isDigit
       | _ => false)
  | [] => false

/-- The year search of `_try_citation`. -/
def hasYearPat (q : List Char) : Bool := q.tails.any yearAt

def isUpperAlpha (c : Char) : Bool := 'A' ≤ c && c ≤ 'Z'

def isLowerAlpha (c : Char) : Bool := 'a' ≤ c && c ≤ 'z'

/-- `\s*,?\s*(?:19|20)\d{2}` at the start of `r`. -/
def yearPart (r : List Char) : Bool :=
  let r1 := r.dropWhile pyIsSpace
  let r2 := match r1 with
    | ',' :: x => x
    | _ => r1
  match r2.dropWhile pyIsSpace with
  | a :: b :: c :: d :: _ =>
    ((a = '1' && b = '9') || (a = '2' && b = '0')) && c.isDigit && d.isDigit
  | _ => false

/-- `\s+et\s+al\.?` at the start of `r`, returning the rest on success. -/
def etAlPart (r : List Char) : Option (List Char) :=
  let ws1 := r.takeWhile pyIsSpace
  if ws1.isEmpty then none
  else
    match r.dropWhile pyIsSpace with
    | 'e' :: 't' :: r1 =>
      let ws2 := r1.takeWhile pyIsSpace
      if ws2.isEmpty then none
      else
        match r1.dropWhile pyIsSpace with
        | 'a' :: 'l' :: r2 =>
          match r2 with
          | '.' :: r3 => some r3
          | _ => some r2
        | _ => none
    | _ => none

/-- `re.search(r"^[A-Z][a-z]+(?:\s+et\s+al\.?)?\s*,?\s*(?:19|20)\d{2}", q)`:
anchored at the start; the optional `et al` group is tried both ways. -/
def authorYearStart (q : List Char) : Bool :=
  match q with
  | c :: rest =>
    isUpperAlpha c &&
      (let ls := rest.takeWhile isLowerAlpha
       !ls.isEmpty &&
        (let r := rest.dropWhile isLowerAlpha
         (match etAlPart r with
          | some r' => yearPart r'
          | none => false) ||
         yearPart r))
  | [] => false

/-- `IdentifierDetector._try_citation`. -/
def tryCitation (q : List Char) : Option DetectionResult :=
  let ql := lowerStr q
  let indicatorCount :=
    (citationIndicators.filter (fun ind => containsSub ind ql)).length
  let hasYear := hasYearPat q
  if (2 ≤ indicatorCount || (1 ≤ indicatorCount && hasYear)) &&
      decide (30 < q.length) then
    some ⟨.citation, 7/10, some q, none⟩
  else if authorYearStart q then
    some ⟨.citation, 13/20, some q, none⟩
  else none

/-- `IdentifierDetector.detect`: matchers in fixed priority order, TITLE
fallback at 0.5, UNKNOWN at 0.0 for a blank query. -/
def detect (q : List Char) : DetectionResult :=
  let q := pyStrip q
  if q.isEmpty then ⟨.unknown, 0, none, none⟩
  else
    ((tryDoi q) <|> (tryArxiv q) <|> (tryIsbn q) <|> (tryPmid q) <|>
      (tryUrl q) <|> (tryCitation q)).getD ⟨.title, 1/2, some q, none⟩

/-- Stable insertion keeping confidences descending: an element goes in
front of the first entry whose confidence is `≤` its own (Python
`list.sort(key=…, reverse=True)` is stable). -/
def insertByConf (x : DetectionResult) : List DetectionResult → List DetectionResult
  | [] => [x]
  | y :: ys =>
    if y.confidence ≤ x.confidence then x :: y :: ys
    else y :: insertByConf x ys

/-- Stable sort by descending confidence. -/
def sortByConfDesc : List DetectionResult → List DetectionResult
  | [] => []
  | x :: xs => insertByConf x (sortByConfDesc xs)

/-- `IdentifierDetector.detect_all`: every matcher's result, the TITLE
fallback at 0.3, sorted by descending confidence. -/
def detectAll (q : List Char) : List DetectionResult :=
  let q := pyStrip q
  if q.isEmpty then []
  else
    sortByConfDesc
      (([tryDoi q, tryArxiv q, tryIsbn q, tryPmid q, tryUrl q,
        tryCitation q].filterMap id) ++
        [⟨.title, 3/10, some q, none⟩])

/-! ## Sorting lemmas for `detect_all` -/

theorem mem_insertByConf {a x : DetectionResult} {l : List DetectionResult} :
    a ∈ insertByConf x l ↔ a = x ∨ a ∈ l := by
  induction l with
  | nil => simp [insertByConf]
  | cons y ys ih =>
    rw [insertByConf]
    by_cases h : y.confidence ≤ x.confidence
    · simp [h]
    · simp only [h, if_false, List.mem_cons, ih]
      tauto

theorem pairwise_insertByConf {x : DetectionResult} {l : List DetectionResult}
    (h : l.Pairwise (fun a b => b.confidence ≤ a.confidence)) :
    (insertByConf x l).Pairwise (fun a b => b.confidence ≤ a.confidence) := by
  induction l with
  | nil => simp [insertByConf]
  | cons y ys ih =>
    rw [insertByConf]
    rw [List.pairwise_cons] at h
    obtain ⟨hy, hys⟩ := h
    by_cases hc : y.confidence ≤ x.confidence
    · rw [if_pos hc]
      refine List.Pairwise.cons ?_ (List.Pairwise.cons hy hys)
      intro z hz
      rcases List.mem_cons.mp hz with rfl | hz
      · exact hc
      · exact le_trans (hy z hz) hc
    · rw [if_neg hc]
      refine List.Pairwise.cons ?_ (ih hys)
      intro z hz
      rcases mem_insertByConf.mp hz with rfl | hz
      · exact le_of_not_le hc
      · exact hy z hz

theorem mem_sortByConfDesc {a : DetectionResult} {l : List DetectionResult} :
    a ∈ sortByConfDesc l ↔ a ∈ l := by
  induction l with
  | nil => simp [sortByConfDesc]
  | cons x xs ih =>
    rw [sortByConfDesc]
    rw [mem_insertByConf, ih]
    simp

theorem pairwise_sortByConfDesc (l : List DetectionResult) :
    (sortByConfDesc l).Pairwise (fun a b => b.confidence ≤ a.confidence) := by
  induction l with
  | nil => simp [sortByConfDesc]
  | cons x xs ih =>
    rw [sortByConfDesc]
    exact pairwise_insertByConf ih

/-! ## Confidence bounds for the individual matchers -/

theorem conf_tryDoi {q : List Char} {r : DetectionResult}
    (h : tryDoi q = some r) : r.confidence = 95/100 ∧ r.input_type = .doi := by
  unfold tryDoi at h
  split at h
  · split at h
    · simp only [Option.some.injEq] at h
      subst h
      exact ⟨rfl, rfl⟩
    · exact absurd h (by simp)
  · exact absurd h (by simp)

theorem conf_tryArxiv {q : List Char} {r : DetectionResult}
    (h : tryArxiv q = some r) :
    r.confidence = 95/100 ∧ r.input_type = .arxiv := by
  unfold tryArxiv at h
  split at h
  · split at h
    · simp only [Option.some.injEq] at h
      subst h
      exact ⟨rfl, rfl⟩
    · exact absurd h (by simp)
  · exact absurd h (by simp)

theorem conf_tryIsbn {q : List Char} {r : DetectionResult}
    (h : tryIsbn q = some r) :
    (r.confidence = 95/100 ∨ r.confidence = 1/2) ∧
      (r.input_type = .isbn_10 ∨ r.input_type = .isbn_13) := by
  unfold tryIsbn at h
  by_cases hm : matchIsbnShape q = true
  · rw [if_pos hm] at h
    simp only at h
    rcases hp : isbnParse (upperStr ((stripIsbnTag q).filter isbnBodyChar))
      with e | p <;> rw [hp] at h
    · by_cases hlen : (upperStr ((stripIsbnTag q).filter isbnBodyChar)).length = 10 ∨
          (upperStr ((stripIsbnTag q).filter isbnBodyChar)).length = 13
      · rw [if_pos hlen] at h
        simp only [Option.some.injEq] at h
        subst h
        constructor
        · right; rfl
        · by_cases h13 : (upperStr ((stripIsbnTag q).filter isbnBodyChar)).length = 13
          · rw [if_pos h13]; right; rfl
          · rw [if_neg h13]; left; rfl
      · rw [if_neg hlen] at h
        exact absurd h (by simp)
    · simp only [Option.some.injEq] at h
      subst h
      constructor
      · left; rfl
      · by_cases hf : p.format = IsbnFormat.isbn10
        · rw [if_pos hf]; left; rfl
        · rw [if_neg hf]; right; rfl
  · rw [if_neg hm] at h
    exact absurd h (by simp)

theorem conf_tryPmid {q : List Char} {r : DetectionResult}
    (h : tryPmid q = some r) :
    r.confidence = 9/10 ∧ r.input_type = .pmid := by
  unfold tryPmid at h
  rcases hs : ((if startsWithCI ('p' :: 'm' :: 'i' :: 'd' :: []) q then
      pmidDigits ((q.drop 4).dropWhile (fun c => c = ':' || pyIsSpace c))
     else none) <|> pmidDigits q) with _ | v <;> rw [hs] at h
  · exact absurd h (by simp)
  · simp only [Option.some.injEq] at h
    subst h
    exact ⟨rfl, rfl⟩

theorem conf_urlDoiStep {host path : List Char} {r : DetectionResult}
    (h : urlDoiStep host path = some r) :
    r.confidence = 98/100 ∧ r.input_type = .doi := by
  unfold urlDoiStep at h
  by_cases hc : containsSub ('d' :: 'o' :: 'i' :: '.' :: 'o' :: 'r' :: 'g' :: [])
      host = true
  · rw [if_pos hc] at h
    rcases hp : doiParse (path.dropWhile (· = '/')) with e | p <;> rw [hp] at h
    · exact absurd h (by simp)
    · simp only [Option.some.injEq] at h
      subst h
      exact ⟨rfl, rfl⟩
  · rw [if_neg hc] at h
    exact absurd h (by simp)

theorem conf_urlArxivStep {host path : List Char} {r : DetectionResult}
    (h : urlArxivStep host path = some r) :
    r.confidence = 98/100 ∧ r.input_type = .arxiv := by
  unfold urlArxivStep at h
  by_cases hc : containsSub ('a' :: 'r' :: 'x' :: 'i' :: 'v' :: '.' :: 'o' ::
      'r' :: 'g' :: []) host = true
  · rw [if_pos hc] at h
    split at h
    · split at h
      · simp only [Option.some.injEq] at h
        subst h
        exact ⟨rfl, rfl⟩
      · exact absurd h (by simp)
    · exact absurd h (by simp)
  · rw [if_neg hc] at h
    exact absurd h (by simp)

theorem conf_urlPmidStep {host path : List Char} {r : DetectionResult}
    (h : urlPmidStep host path = some r) :
    r.confidence = 95/100 ∧ r.input_type = .pmid := by
  unfold urlPmidStep at h
  by_cases hc : (containsSub ('p' :: 'u' :: 'b' :: 'm' :: 'e' :: 'd' :: []) host ||
      containsSub ('n' :: 'c' :: 'b' :: 'i' :: '.' :: 'n' :: 'l' :: 'm' ::
        '.' :: 'n' :: 'i' :: 'h' :: '.' :: 'g' :: 'o' :: 'v' :: []) host) = true
  · rw [if_pos hc] at h
    rcases hs : pmidUrlScan path with _ | v <;> rw [hs] at h
    · exact absurd h (by simp)
    · simp only [Option.some.injEq] at h
      subst h
      exact ⟨rfl, rfl⟩
  · rw [if_neg hc] at h
    exact absurd h (by simp)

theorem conf_tryUrl {q : List Char} {r : DetectionResult}
    (h : tryUrl q = some r) :
    (r.confidence = 98/100 ∨ r.confidence = 95/100 ∨ r.confidence = 6/10) ∧
      (r.input_type = .doi ∨ r.input_type = .arxiv ∨ r.input_type = .pmid ∨
        r.input_type = .url) := by
  unfold tryUrl at h
  by_cases hu : matchUrlStart q = true
  · rw [if_pos hu] at h
    simp only [Option.some.injEq] at h
    subst h
    generalize ((if startsWithCI
        ('h' :: 't' :: 't' :: 'p' :: 's' :: ':' :: '/' :: '/' :: []) q
      then q.drop 8 else q.drop 7) : List Char) = afterScheme
    generalize (lowerStr (afterScheme.takeWhile fun c => !netlocEnd c)) = host
    generalize ((afterScheme.dropWhile fun c => !netlocEnd c).takeWhile
      fun c => !pathEnd c) = path
    rcases h1 : urlDoiStep host path with _ | r1
    · rcases h2 : urlArxivStep host path with _ | r2
      · rcases h3 : urlPmidStep host path with _ | r3
        · simp [h1, h2, h3]
        · obtain ⟨hc, ht⟩ := conf_urlPmidStep h3
          simp [h1, h2, h3, hc, ht]
      · obtain ⟨hc, ht⟩ := conf_urlArxivStep h2
        simp [h1, h2, hc, ht]
    · obtain ⟨hc, ht⟩ := conf_urlDoiStep h1
      simp [h1, hc, ht]
  · rw [if_neg hu] at h
    exact absurd h (by simp)

theorem conf_tryCitation {q : List Char} {r : DetectionResult}
    (h : tryCitation q = some r) :
    (r.confidence = 7/10 ∨ r.confidence = 13/20) ∧ r.input_type = .citation := by
  unfold tryCitation at h
  split at h <;> dsimp only at h <;> split at h <;>
    first
      | (simp only [Option.some.injEq] at h
         subst h
         exact ⟨by norm_num, rfl⟩)
      | simp at h

/-- C3 (amended): for every query whose stripped form is non-empty,
`detect_all` contains the TITLE fallback at confidence 0.3, is sorted by
descending confidence, and the TITLE candidate's confidence is a lower
bound for every candidate in the list. -/
theorem detectAll_title_fallback_sorted (q : List Char)
    (h : pyStrip q ≠ []) :
    (⟨.title, 3/10, some (pyStrip q), none⟩ : DetectionResult) ∈ detectAll q ∧
    (detectAll q).Pairwise (fun a b => b.confidence ≤ a.confidence) ∧
    ∀ r ∈ detectAll q, (3 : ℚ)/10 ≤ r.confidence := by
  have hne : ¬((pyStrip q).isEmpty = true) := fun hh => h (List.isEmpty_iff.mp hh)
  have hform : detectAll q = sortByConfDesc
      (([tryDoi (pyStrip q), tryArxiv (pyStrip q), tryIsbn (pyStrip q),
        tryPmid (pyStrip q), tryUrl (pyStrip q),
        tryCitation (pyStrip q)].filterMap id) ++
        [⟨.title, 3/10, some (pyStrip q), none⟩]) := by
    unfold detectAll
    rw [if_neg hne]
  refine ⟨?_, ?_, ?_⟩
  · rw [hform]
    exact mem_sortByConfDesc.mpr (by simp)
  · rw [hform]
    exact pairwise_sortByConfDesc _
  · intro r hr
    rw [hform] at hr
    have hr2 := mem_sortByConfDesc.mp hr
    rcases List.mem_append.mp hr2 with hr3 | hr3
    · obtain ⟨o, ho, hor⟩ := List.mem_filterMap.mp hr3
      rw [id] at hor
      subst hor
      simp only [List.mem_cons, List.not_mem_nil, or_false] at ho
      rcases ho with ho | ho | ho | ho | ho | ho
      · obtain ⟨hc, _⟩ := conf_tryDoi ho.symm
        rw [hc]; norm_num
      · obtain ⟨hc, _⟩ := conf_tryArxiv ho.symm
        rw [hc]; norm_num
      · obtain ⟨hc, _⟩ := conf_tryIsbn ho.symm
        rcases hc with hc | hc <;> rw [hc] <;> norm_num
      · obtain ⟨hc, _⟩ := conf_tryPmid ho.symm
        rw [hc]; norm_num
      · obtain ⟨hc, _⟩ := conf_tryUrl ho.symm
        rcases hc with hc | hc | hc <;> rw [hc] <;> norm_num
      · obtain ⟨hc, _⟩ := conf_tryCitation ho.symm
        rcases hc with hc | hc <;> rw [hc] <;> norm_num
    · simp only [List.mem_singleton] at hr3
      subst hr3
      norm_num

/-- C3 counterexample: for an empty (or all-whitespace) query `detect_all`
returns the empty list, which contains no TITLE candidate at all. -/
theorem detectAll_empty_counterexample : detectAll [] = [] := rfl

/-- C3 witness: the amended statement at the one-character query `x`. -/
theorem detectAll_title_fallback_sorted_witness :
    (⟨.title, 3/10, some (pyStrip ('x' :: [])), none⟩ : DetectionResult) ∈
        detectAll ('x' :: []) ∧
    (detectAll ('x' :: [])).Pairwise (fun a b => b.confidence ≤ a.confidence) ∧
    ∀ r ∈ detectAll ('x' :: []), (3 : ℚ)/10 ≤ r.confidence :=
  detectAll_title_fallback_sorted ('x' :: []) (by decide)

/-! ## All-digit queries defeat the DOI and arXiv searches (for C2) -/

theorem pyToLower_digit {c : Char} (h : c.isDigit = true) : pyToLower c = c := by
  obtain ⟨h1, h2⟩ := isDigit_toNat h
  unfold pyToLower
  have : ('A' ≤ c && c ≤ 'Z') = false := by
    simp only [Bool.and_eq_false_iff, decide_eq_false_iff_not]
    left
    intro hle
    have h3 : ('A' : Char).val.toNat ≤ c.val.toNat := Char.le_def.mp hle
    have h4 : ('A' : Char).val.toNat = 65 := by decide
    have h5 : c.val.toNat = c.toNat := rfl
    omega
  rw [this]
  rfl

theorem pyIsSpace_digit {c : Char} (h : c.isDigit = true) :
    pyIsSpace c = false := by
  have hne : ∀ d : Char, d.toNat < 48 → c ≠ d := by
    intro d hd e
    subst e
    have := isDigit_toNat h
    omega
  simp [pyIsSpace, hne ' ' (by decide), hne '\t' (by decide),
    hne '\n' (by decide), hne '\r' (by decide), hne '\x0b' (by decide),
    hne '\x0c' (by decide)]

/-- A case-insensitive literal headed by a lowercase letter never matches at
a digit-headed (or empty) position. -/
theorem startsWithCI_letter_digits {c : Char} {ps t : List Char}
    (hc : 97 ≤ c.toNat) (h : t.all Char.isDigit = true) :
    startsWithCI (c :: ps) t = false := by
  rcases t with _ | ⟨d, t'⟩
  · rfl
  · simp only [List.all_cons, Bool.and_eq_true] at h
    have hld : pyToLower d = d := pyToLower_digit h.1
    have hne : c ≠ d := by
      intro e
      subst e
      have := (isDigit_toNat h.1).2
      omega
    simp [startsWithCI, lowerStr, startsWith, hld, hne]

theorem doiCoreAt_digits {t : List Char} (h : t.all Char.isDigit = true) :
    doiCoreAt t = none := by
  rcases t with _ | ⟨a, _ | ⟨b, _ | ⟨c, r⟩⟩⟩
  · rfl
  · rfl
  · rfl
  · simp only [List.all_cons, Bool.and_eq_true] at h
    have hne : c ≠ '.' := by
      intro e
      subst e
      have h46 : ('.' : Char).toNat = 46 := by decide
      have := (isDigit_toNat h.2.2.1).1
      omega
    simp [doiCoreAt, hne]

theorem doiTryAt_digits {t : List Char} (h : t.all Char.isDigit = true) :
    doiTryAt t = none := by
  unfold doiTryAt
  have hurl : doiUrlPres.findSome? (fun p =>
      if startsWithCI p t then doiCoreAt (t.drop p.length) else none) = none := by
    refine List.findSome?_eq_none_iff.mpr ?_
    intro p hp
    simp only [doiUrlPres, List.mem_cons, List.not_mem_nil, or_false] at hp
    have : startsWithCI p t = false := by
      rcases hp with rfl | rfl | rfl | rfl
      · exact startsWithCI_letter_digits (by decide) h
      · exact startsWithCI_letter_digits (by decide) h
      · exact startsWithCI_letter_digits (by decide) h
      · exact startsWithCI_letter_digits (by decide) h
    simp [this]
  have hdoi : startsWithCI ('d' :: 'o' :: 'i' :: []) t = false :=
    startsWithCI_letter_digits (by decide) h
  rw [hurl, hdoi]
  simp [doiCoreAt_digits h]

theorem all_digit_of_mem_tails {q t : List Char}
    (hq : q.all Char.isDigit = true) (ht : t ∈ q.tails) :
    t.all Char.isDigit = true := by
  have hsub : t <:+ q := (List.mem_tails t q).mp ht
  refine List.all_eq_true.mpr ?_
  intro x hx
  exact List.all_eq_true.mp hq x (hsub.sublist.subset hx)

theorem doiSearch_digits {q : List Char} (h : q.all Char.isDigit = true) :
    doiSearch q = none := by
  unfold doiSearch
  refine List.findSome?_eq_none_iff.mpr ?_
  intro t ht
  exact doiTryAt_digits (all_digit_of_mem_tails h ht)

theorem archives_head_letter :
    arxivOldArchives.all (fun ar =>
      match ar with
      | c :: _ => decide (97 ≤ c.toNat)
      | [] => false) = true := by decide

theorem arxivOldAt_digits {t : List Char} (h : t.all Char.isDigit = true) :
    arxivOldAt t = none := by
  unfold arxivOldAt
  refine List.findSome?_eq_none_iff.mpr ?_
  intro ar har
  have hhead := List.all_eq_true.mp archives_head_letter ar har
  rcases ar with _ | ⟨c, ps⟩
  · exact absurd hhead (by decide)
  · simp only [decide_eq_true_eq] at hhead
    simp [startsWithCI_letter_digits hhead h]

theorem arxivNewAt_digits {t : List Char} (h : t.all Char.isDigit = true) :
    arxivNewAt t = none := by
  rcases t with _ | ⟨a, _ | ⟨b, _ | ⟨c, _ | ⟨d, _ | ⟨e, r⟩⟩⟩⟩⟩
  · rfl
  · rfl
  · rfl
  · rfl
  · rfl
  · simp only [List.all_cons, Bool.and_eq_true] at h
    have hne : e ≠ '.' := by
      intro hx
      subst hx
      have h46 : ('.' : Char).toNat = 46 := by decide
      have := (isDigit_toNat h.2.2.2.2.1).1
      omega
    simp [arxivNewAt, hne]

theorem arxivTryAt_digits {t : List Char} (h : t.all Char.isDigit = true) :
    arxivTryAt t = none := by
  unfold arxivTryAt
  have hurl : arxivUrlPres.findSome? (fun p =>
      if startsWithCI p t then arxivCoreAt (t.drop p.length) else none) = none := by
    refine List.findSome?_eq_none_iff.mpr ?_
    intro p hp
    simp only [arxivUrlPres, List.mem_cons, List.not_mem_nil, or_false] at hp
    have : startsWithCI p t = false := by
      rcases hp with rfl | rfl | rfl | rfl
      · exact startsWithCI_letter_digits (by decide) h
      · exact startsWithCI_letter_digits (by decide) h
      · exact startsWithCI_letter_digits (by decide) h
      · exact startsWithCI_letter_digits (by decide) h
    simp [this]
  have harx : startsWithCI ('a' :: 'r' :: 'x' :: 'i' :: 'v' :: []) t = false :=
    startsWithCI_letter_digits (by decide) h
  rw [hurl, harx]
  simp [arxivCoreAt, arxivNewAt_digits h, arxivOldAt_digits h]

theorem arxivSearch_digits {q : List Char} (h : q.all Char.isDigit = true) :
    arxivSearch q = none := by
  unfold arxivSearch
  refine List.findSome?_eq_none_iff.mpr ?_
  intro t ht
  exact arxivTryAt_digits (all_digit_of_mem_tails h ht)

theorem isbnBodyChar_not_sep {c : Char} (h : isbnBodyChar c = true) :
    isbnSepChar c = false := by
  unfold isbnBodyChar at h
  simp only [Bool.or_eq_true, decide_eq_true_eq] at h
  rcases h with (h | h) | h
  · unfold isbnSepChar
    have hne : ∀ d : Char, d.toNat < 48 → c ≠ d := by
      intro d hd e
      subst e
      have := isDigit_toNat h
      omega
    simp [pyIsSpace, hne '-' (by decide), hne ' ' (by decide),
      hne '\t' (by decide), hne '\n' (by decide), hne '\r' (by decide),
      hne '\x0b' (by decide), hne '\x0c' (by decide)]
  · subst h; decide
  · subst h; decide

/-- A separator-free run of body characters of length `hi + 1` always
satisfies the `{lo,hi}`-group body, for any `lo ≤ hi`. -/
theorem isbnBody_plain (hi : Nat) :
    ∀ (lo : Nat) (s : List Char), s.length = hi + 1 → lo ≤ hi →
      s.all isbnBodyChar = true → isbnBody s lo hi = true := by
  induction hi with
  | zero =>
    intro lo s hlen hlo hall
    rcases s with _ | ⟨c, s'⟩
    · simp at hlen
    · have hs' : s' = [] := by
        simp only [List.length_cons] at hlen
        exact List.length_eq_zero.mp (by omega)
      subst hs'
      simp only [List.all_cons, List.all_nil, Bool.and_true] at hall
      have hlo0 : lo = 0 := by omega
      subst hlo0
      simp [isbnBody, isbnFinal, hall]
  | succ hi ih =>
    intro lo s hlen hlo hall
    rcases s with _ | ⟨c, rest⟩
    · simp at hlen
    · simp only [List.all_cons, Bool.and_eq_true] at hall
      have hrlen : rest.length = hi + 1 := by
        simp only [List.length_cons] at hlen
        omega
      have hbody : isbnBody rest (lo - 1) hi = true :=
        ih (lo - 1) rest hrlen (by omega) hall.2
      rcases hrest : rest with _ | ⟨d, r2⟩
      · rw [hrest] at hrlen
        simp at hrlen
      · have hd : isbnBodyChar d = true := by
          rw [hrest] at hall
          simp only [List.all_cons, Bool.and_eq_true] at hall
          exact hall.2.1
        have hsep : isbnSepChar d = false := isbnBodyChar_not_sep hd
        rw [isbnBody]
        simp only [Bool.or_eq_true]
        right
        rw [← hrest]
        refine (Bool.and_eq_true _ _).mpr ⟨hall.1, ?_⟩
        rw [hrest]
        simp only [hsep, if_false]
        rw [← hrest]
        exact hbody

/-- Letters open every case-insensitive tag the ISBN matcher strips, so an
all-digit query is left untouched by the tag stripping. -/
theorem stripIsbnTag_digits {q : List Char} (h : q.all Char.isDigit = true) :
    stripIsbnTag q = q := by
  unfold stripIsbnTag
  rw [startsWithCI_letter_digits (by decide) h]
  rfl

/-! ## Character constraints of the ISBN shape, and the DOI/arXiv searches
on dot-free and slash-free input -/

/-- ISBN body and separator characters are never `.` or `/`. -/
theorem bodysep_no_dot_slash {c : Char}
    (h : isbnBodyChar c = true ∨ isbnSepChar c = true) :
    c ≠ '.' ∧ c ≠ '/' := by
  constructor <;> rintro rfl <;> rcases h with h | h <;>
    exact absurd h (by decide)

/-- The terminal `[\dX]$` of the ISBN shape holds a single body character. -/
theorem isbnFinal_chars {s : List Char} (h : isbnFinal s = true) :
    ∀ c ∈ s, isbnBodyChar c = true ∨ isbnSepChar c = true := by
  rcases s with _ | ⟨a, _ | ⟨b, t⟩⟩
  · exact fun c hc => absurd hc (List.not_mem_nil c)
  · intro c hc
    rcases List.mem_cons.mp hc with rfl | hc2
    · exact .inl h
    · exact absurd hc2 (List.not_mem_nil c)
  · exact (Bool.noConfusion h)

/-- The optional-separator step of the ISBN body: if every string accepted
by `isbnBody` at the stepped position has only body/separator characters,
so does `rest`. -/
theorem isbnSepStep_chars {rest : List Char} {lo hi : Nat}
    (h : isbnBody (match rest with
        | d :: r2 => if isbnSepChar d then r2 else rest
        | [] => rest) lo hi = true)
    (ih : ∀ s : List Char, isbnBody s lo hi = true →
      ∀ c ∈ s, isbnBodyChar c = true ∨ isbnSepChar c = true) :
    ∀ c ∈ rest, isbnBodyChar c = true ∨ isbnSepChar c = true := by
  rcases rest with _ | ⟨d, r2⟩
  · exact fun c hc => absurd hc (List.not_mem_nil c)
  · dsimp only at h
    intro c hc
    by_cases hd : isbnSepChar d = true
    · rw [if_pos hd] at h
      rcases List.mem_cons.mp hc with rfl | hc2
      · exact .inr hd
      · exact ih r2 h c hc2
    · rw [if_neg hd] at h
      exact ih (d :: r2) h c hc

/-- Strings accepted by the `([\dX][-\s]?){lo,hi}[\dX]$` body consist of
body and separator characters only. -/
theorem isbnBody_chars (hi : Nat) :
    ∀ (s : List Char) (lo : Nat), isbnBody s lo hi = true →
      ∀ c ∈ s, isbnBodyChar c = true ∨ isbnSepChar c = true := by
  induction hi with
  | zero =>
    intro s lo h
    rw [isbnBody, Bool.and_eq_true] at h
    exact isbnFinal_chars h.2
  | succ hi ih =>
    intro s lo h
    rw [isbnBody.eq_def] at h
    dsimp only at h
    rw [Bool.or_eq_true] at h
    rcases h with h | h
    · rw [Bool.and_eq_true] at h
      exact isbnFinal_chars h.2
    · rcases s with _ | ⟨a, rest⟩
      · exact fun c hc => absurd hc (List.not_mem_nil c)
      · dsimp only at h
        rw [Bool.and_eq_true] at h
        intro c hc
        rcases List.mem_cons.mp hc with rfl | hc2
        · exact .inl h.1
        · exact isbnSepStep_chars h.2 (fun s2 hs2 => ih s2 (lo - 1) hs2) c hc2

/-- Strings accepted by the `(97[89][-\s]?)?`-prefixed body consist of body
and separator characters only. -/
theorem isbnBody978_chars {r : List Char} (h : isbnBody978 r = true) :
    ∀ c ∈ r, isbnBodyChar c = true ∨ isbnSepChar c = true := by
  unfold isbnBody978 at h
  rw [Bool.or_eq_true] at h
  rcases h with h | h
  · exact isbnBody_chars 12 r 9 h
  · rcases r with _ | ⟨a, _ | ⟨b, _ | ⟨c0, rest⟩⟩⟩
    · exact (Bool.noConfusion h)
    · exact (Bool.noConfusion h)
    · exact (Bool.noConfusion h)
    · dsimp only at h
      simp only [Bool.and_eq_true, Bool.or_eq_true, decide_eq_true_eq] at h
      obtain ⟨⟨⟨ha, hb⟩, hc0⟩, hbody⟩ := h
      intro c hc
      rcases List.mem_cons.mp hc with rfl | hc
      · left; rw [ha]; decide
      · rcases List.mem_cons.mp hc with rfl | hc
        · left; rw [hb]; decide
        · rcases List.mem_cons.mp hc with rfl | hc
          · rcases hc0 with h8 | h9
            · left; rw [h8]; decide
            · left; rw [h9]; decide
          · exact isbnSepStep_chars hbody
              (fun s2 hs2 => isbnBody_chars 12 s2 9 hs2) c hc

/-- `startsWith` pins down the first `p.length` characters of `s`. -/
theorem startsWith_chars :
    ∀ (p s : List Char), startsWith p s = true →
      ∀ c ∈ s.take p.length, c ∈ p := by
  intro p
  induction p with
  | nil =>
    intro s h c hc
    simp at hc
  | cons x ps ih =>
    intro s h c hc
    rcases s with _ | ⟨y, t⟩
    · exact (Bool.noConfusion h)
    · rw [startsWith, Bool.and_eq_true, decide_eq_true_eq] at h
      simp only [List.length_cons, List.take_succ_cons, List.mem_cons] at hc
      rcases hc with rfl | hc2
      · rw [← h.1]
        exact List.mem_cons_self x ps
      · exact List.mem_cons_of_mem x (ih t h.2 c hc2)

/-- A case-insensitive prefix pins down the lowered characters. -/
theorem startsWithCI_chars {p q : List Char} (h : startsWithCI p q = true) :
    ∀ c ∈ q.take p.length, pyToLower c ∈ p := by
  intro c hc
  have h2 : pyToLower c ∈ (lowerStr q).take p.length := by
    unfold lowerStr
    rw [← List.map_take]
    exact List.mem_map_of_mem pyToLower hc
  exact startsWith_chars p (lowerStr q) h (pyToLower c) h2

/-- Characters covered by a case-insensitive pattern avoiding `.` and `/`
are themselves neither (lowering fixes both characters). -/
theorem ci_no_dot_slash {p q : List Char} (h : startsWithCI p q = true)
    (hdot : ('.' : Char) ∉ p) (hslash : ('/' : Char) ∉ p) :
    ∀ c ∈ q.take p.length, c ≠ '.' ∧ c ≠ '/' := by
  intro c hc
  have hm := startsWithCI_chars h c hc
  constructor
  · rintro rfl
    rw [(by decide : pyToLower '.' = '.')] at hm
    exact hdot hm
  · rintro rfl
    rw [(by decide : pyToLower '/' = '/')] at hm
    exact hslash hm

/-- Characters consumed by the `[:\s]*` tag separator are neither `.` nor
`/`. -/
theorem tagdrop_no_dot_slash {x : List Char} {c : Char}
    (hc : c ∈ x.takeWhile (fun c => c = ':' || pyIsSpace c)) :
    c ≠ '.' ∧ c ≠ '/' := by
  have hp := List.mem_takeWhile_imp hc
  simp only [Bool.or_eq_true, decide_eq_true_eq] at hp
  constructor <;> rintro rfl <;> rcases hp with hp | hp <;>
    exact absurd hp (by decide)

/-- A segment whose `[:\s]*`-stripped remainder passes the 978-body has no
`.` or `/`. -/
theorem afterTag_chars {x : List Char}
    (h : isbnBody978 (x.dropWhile (fun c => c = ':' || pyIsSpace c)) = true) :
    ∀ c ∈ x, c ≠ '.' ∧ c ≠ '/' := by
  intro c hc
  rw [← List.takeWhile_append_dropWhile (fun c => c = ':' || pyIsSpace c) x] at hc
  rcases List.mem_append.mp hc with hc1 | hc1
  · exact tagdrop_no_dot_slash hc1
  · exact bodysep_no_dot_slash (isbnBody978_chars h c hc1)

/-- Splitting list membership at `take n`/`drop n`. -/
theorem mem_take_or_drop {c : Char} {l : List Char} (n : Nat) (hc : c ∈ l) :
    c ∈ l.take n ∨ c ∈ l.drop n := by
  rw [← List.take_append_drop n l] at hc
  exact List.mem_append.mp hc

/-- A tag-length option (`-10`, `-13`, `10`, `13`): both its prefix and its
stripped remainder avoid `.` and `/`. -/
theorem tagOption_chars {r pat : List Char} (hdot : ('.' : Char) ∉ pat)
    (hslash : ('/' : Char) ∉ pat) (hs : startsWithCI pat r = true)
    (hb : isbnBody978 ((r.drop pat.length).dropWhile
      (fun c => c = ':' || pyIsSpace c)) = true) :
    ∀ c ∈ r, c ≠ '.' ∧ c ≠ '/' := by
  intro c hc
  rcases mem_take_or_drop pat.length hc with h1 | h1
  · exact ci_no_dot_slash hs hdot hslash c h1
  · exact afterTag_chars hb c h1

/-- Queries matching the detector's anchored ISBN shape contain neither `.`
nor `/` — the character classes of every piece of `ISBN_PATTERN` exclude
both. -/
theorem matchIsbnShape_chars {q : List Char} (hq : matchIsbnShape q = true) :
    ∀ c ∈ q, c ≠ '.' ∧ c ≠ '/' := by
  unfold matchIsbnShape at hq
  rw [Bool.or_eq_true] at hq
  rcases hq with h | h
  · intro c hc
    exact bodysep_no_dot_slash (isbnBody978_chars h c hc)
  · by_cases hci : startsWithCI ('i' :: 's' :: 'b' :: 'n' :: []) q = true
    · rw [if_pos hci] at h
      dsimp only at h
      intro c hc
      rcases mem_take_or_drop 4 hc with hc4 | hcr
      · exact ci_no_dot_slash hci (by decide) (by decide) c hc4
      · simp only [Bool.or_eq_true, Bool.and_eq_true] at h
        rcases h with (((h0 | h1) | h2) | h3) | h4
        · exact afterTag_chars h0 c hcr
        · exact tagOption_chars (by decide) (by decide) h1.1 h1.2 c hcr
        · exact tagOption_chars (by decide) (by decide) h2.1 h2.2 c hcr
        · exact tagOption_chars (by decide) (by decide) h3.1 h3.2 c hcr
        · exact tagOption_chars (by decide) (by decide) h4.1 h4.2 c hcr
    · rw [if_neg hci] at h
      exact absurd h (by decide)

/-- The DOI core starts `10.`; with no `.` available it cannot match. -/
theorem doiCoreAt_noDot {t : List Char} (h : ('.' : Char) ∉ t) :
    doiCoreAt t = none := by
  rcases t with _ | ⟨a, _ | ⟨b, _ | ⟨c, rest⟩⟩⟩
  · rfl
  · rfl
  · rfl
  · have hc : ¬(c = '.') := by
      rintro rfl
      exact h (by simp)
    unfold doiCoreAt
    simp [hc]

/-- Dropping characters cannot introduce a member. -/
theorem not_mem_drop {c : Char} {l : List Char} (n : Nat) (h : c ∉ l) :
    c ∉ l.drop n := fun hm => h (List.drop_subset n l hm)

/-- `dropWhile` keeps a sublist, so it cannot introduce a member. -/
theorem not_mem_dropWhile {c : Char} {p : Char → Bool} {l : List Char}
    (h : c ∉ l) : c ∉ l.dropWhile p :=
  fun hm => h (List.Sublist.mem hm (List.dropWhile_sublist p))

/-- One attempt of the detector DOI pattern fails on dot-free text: every
alternative ends in the core, which needs `10.`. -/
theorem doiTryAt_noDot {t : List Char} (h : ('.' : Char) ∉ t) :
    doiTryAt t = none := by
  have hA : (doiUrlPres.findSome? fun p =>
      if startsWithCI p t then doiCoreAt (t.drop p.length) else none) = none := by
    refine List.findSome?_eq_none_iff.mpr ?_
    intro p hp
    by_cases hs : startsWithCI p t = true
    · rw [if_pos hs]
      exact doiCoreAt_noDot (not_mem_drop _ h)
    · exact if_neg hs
  unfold doiTryAt
  rw [hA, Option.none_orElse]
  by_cases hs : startsWithCI ('d' :: 'o' :: 'i' :: []) t = true
  · rw [if_pos hs]
    dsimp only
    have hB : doiCoreAt ((match t.drop 3 with
        | ':' :: r => r
        | _ => t.drop 3).dropWhile pyIsSpace) = none := by
      have h3 : ('.' : Char) ∉ t.drop 3 := not_mem_drop 3 h
      split
      · rename_i r heq
        have hr : ('.' : Char) ∉ r := by
          intro hm
          rw [heq] at h3
          exact h3 (List.mem_cons_of_mem _ hm)
        exact doiCoreAt_noDot (not_mem_dropWhile hr)
      · exact doiCoreAt_noDot (not_mem_dropWhile h3)
    rw [hB, Option.none_orElse]
    exact doiCoreAt_noDot h
  · rw [if_neg hs, Option.none_orElse]
    exact doiCoreAt_noDot h

/-- `DOI_PATTERN.search` on a dot-free query finds nothing. -/
theorem doiSearch_noDot {q : List Char} (h : ('.' : Char) ∉ q) :
    doiSearch q = none := by
  unfold doiSearch
  refine List.findSome?_eq_none_iff.mpr ?_
  intro t ht
  exact doiTryAt_noDot fun hm => h ((List.mem_tails t q |>.mp ht).subset hm)

/-- The new-format arXiv alternative needs a `.` in fifth position. -/
theorem arxivNewAt_noDot {t : List Char} (h : ('.' : Char) ∉ t) :
    arxivNewAt t = none := by
  rcases t with _ | ⟨a, _ | ⟨b, _ | ⟨c, _ | ⟨d, _ | ⟨e, rest⟩⟩⟩⟩⟩
  · rfl
  · rfl
  · rfl
  · rfl
  · rfl
  · have he : ¬(e = '.') := by
      rintro rfl
      exact h (by simp)
    unfold arxivNewAt
    simp [he]

/-- The old-format arXiv alternative needs a `/` after the archive name. -/
theorem arxivOldAt_noSlash {t : List Char} (h : ('/' : Char) ∉ t) :
    arxivOldAt t = none := by
  unfold arxivOldAt
  refine List.findSome?_eq_none_iff.mpr ?_
  intro ar har
  by_cases hs : startsWithCI ar t = true
  · rw [if_pos hs]
    rcases e : t.drop ar.length with _ | ⟨sl, rest2⟩
    · rfl
    · have hsl : ¬(sl = '/') := by
        rintro rfl
        refine h (List.drop_subset ar.length t ?_)
        rw [e]
        exact List.mem_cons_self _ _
      simp [hsl]
  · exact if_neg hs

/-- The arXiv core fails on text with no `.` and no `/`. -/
theorem arxivCoreAt_none {t : List Char} (hd : ('.' : Char) ∉ t)
    (hs : ('/' : Char) ∉ t) : arxivCoreAt t = none := by
  unfold arxivCoreAt
  rw [arxivNewAt_noDot hd, arxivOldAt_noSlash hs]
  rfl

/-- One attempt of the detector arXiv pattern fails when the text has no
`.` and no `/`: every alternative ends in the core. -/
theorem arxivTryAt_none {t : List Char} (hd : ('.' : Char) ∉ t)
    (hs : ('/' : Char) ∉ t) : arxivTryAt t = none := by
  have hcore : ∀ u : List Char, (∀ x ∈ u, x ∈ t) → arxivCoreAt u = none :=
    fun u hu => arxivCoreAt_none (fun hm => hd (hu _ hm)) (fun hm => hs (hu _ hm))
  have hA : (arxivUrlPres.findSome? fun p =>
      if startsWithCI p t then arxivCoreAt (t.drop p.length) else none) = none := by
    refine List.findSome?_eq_none_iff.mpr ?_
    intro p hp
    by_cases hsw : startsWithCI p t = true
    · rw [if_pos hsw]
      exact hcore _ (fun x hx => List.drop_subset _ t hx)
    · exact if_neg hsw
  unfold arxivTryAt
  rw [hA, Option.none_orElse]
  by_cases hsw : startsWithCI ('a' :: 'r' :: 'x' :: 'i' :: 'v' :: []) t = true
  · rw [if_pos hsw]
    dsimp only
    have hB : arxivCoreAt ((match t.drop 5 with
        | ':' :: r => r
        | _ => t.drop 5).dropWhile pyIsSpace) = none := by
      split
      · rename_i r heq
        refine hcore _ (fun x hx => ?_)
        have hx2 : x ∈ t.drop 5 := by
          rw [heq]
          exact List.mem_cons_of_mem _
            (List.Sublist.mem hx (List.dropWhile_sublist _))
        exact List.drop_subset 5 t hx2
      · refine hcore _ (fun x hx => ?_)
        exact List.drop_subset 5 t
          (List.Sublist.mem hx (List.dropWhile_sublist _))
    rw [hB, Option.none_orElse]
    exact hcore t (fun x hx => hx)
  · rw [if_neg hsw, Option.none_orElse]
    exact hcore t (fun x hx => hx)

/-- `ARXIV_PATTERN.search` finds nothing when the query has no `.` and no
`/`. -/
theorem arxivSearch_none {q : List Char} (hd : ('.' : Char) ∉ q)
    (hs : ('/' : Char) ∉ q) : arxivSearch q = none := by
  unfold arxivSearch
  refine List.findSome?_eq_none_iff.mpr ?_
  intro t ht
  have hsub := (List.mem_tails t q |>.mp ht).subset
  exact arxivTryAt_none (fun hm => hd (hsub hm)) (fun hm => hs (hsub hm))

/-- C2 (amended): only the ISBN matcher has the reduced-confidence
behaviour.  (1) Every query whose stripped form fits the detector's ISBN
shape and whose normalized digit/X form has length 10 or 13 but fails
`ISBN.parse` is reported by `detect` as ISBN_10/ISBN_13 at confidence 0.5
with the normalized value and no parsed identifier (the DOI and arXiv
matchers cannot fire on such queries, whose characters exclude `.` and
`/`).  (2) The DOI matcher only ever returns a 0.95-confidence result
carrying a successfully parsed `DOI`; (3) likewise the arXiv matcher with
an `ArXivID`; (4) when `ArXivID.parse` rejects the captured text the arXiv
matcher returns nothing, so the query falls through to later matchers. -/
theorem detect_reduced_confidence_isbn_only :
    (∀ (q s n : List Char) (e : String),
      pyStrip q = s →
      matchIsbnShape s = true →
      upperStr ((stripIsbnTag s).filter isbnBodyChar) = n →
      isbnParse n = Except.error e →
      (n.length = 10 ∨ n.length = 13) →
      detect q = ⟨(if n.length = 13 then InputType.isbn_13 else InputType.isbn_10),
        1/2, some n, none⟩) ∧
    (∀ (q : List Char) (r : DetectionResult), tryDoi q = some r →
      ∃ g p, doiSearch q = some g ∧ doiParse g = Except.ok p ∧
        r = ⟨InputType.doi, 95/100, some p.value, some (ParsedId.doi p)⟩) ∧
    (∀ (q : List Char) (r : DetectionResult), tryArxiv q = some r →
      ∃ g p, arxivSearch q = some g ∧ arxivParse g = Except.ok p ∧
        r = ⟨InputType.arxiv, 95/100, some p.value, some (ParsedId.arxiv p)⟩) ∧
    (∀ (q g : List Char) (e : String), arxivSearch q = some g →
      arxivParse g = Except.error e → tryArxiv q = none) := by
  have hB : ∀ (q : List Char) (r : DetectionResult), tryDoi q = some r →
      ∃ g p, doiSearch q = some g ∧ doiParse g = Except.ok p ∧
        r = ⟨InputType.doi, 95/100, some p.value, some (ParsedId.doi p)⟩ := by
    intro q r h
    unfold tryDoi at h
    split at h
    · split at h
      · rename_i _ g hg _ parsed hpar
        simp only [Option.some.injEq] at h
        exact ⟨g, parsed, hg, hpar, h.symm⟩
      · exact absurd h (by simp)
    · exact absurd h (by simp)
  have hC : ∀ (q : List Char) (r : DetectionResult), tryArxiv q = some r →
      ∃ g p, arxivSearch q = some g ∧ arxivParse g = Except.ok p ∧
        r = ⟨InputType.arxiv, 95/100, some p.value, some (ParsedId.arxiv p)⟩ := by
    intro q r h
    unfold tryArxiv at h
    split at h
    · split at h
      · rename_i _ g hg _ parsed hpar
        simp only [Option.some.injEq] at h
        exact ⟨g, parsed, hg, hpar, h.symm⟩
      · exact absurd h (by simp)
    · exact absurd h (by simp)
  refine ⟨?_, hB, hC, ?_⟩
  · intro q s n e hstrip hshape hn hparse hlen
    have hchars := matchIsbnShape_chars hshape
    have hdot : ('.' : Char) ∉ s := fun hm => (hchars _ hm).1 rfl
    have hslash : ('/' : Char) ∉ s := fun hm => (hchars _ hm).2 rfl
    have hne : ¬(s.isEmpty = true) := by
      intro he
      rw [List.isEmpty_iff.mp he] at hshape
      exact absurd hshape (by decide)
    have hdoi : tryDoi s = none := by
      unfold tryDoi
      rw [doiSearch_noDot hdot]
    have harx : tryArxiv s = none := by
      unfold tryArxiv
      rw [arxivSearch_none hdot hslash]
    have hisbn : tryIsbn s = some ⟨(if n.length = 13 then InputType.isbn_13
        else InputType.isbn_10), 1/2, some n, none⟩ := by
      unfold tryIsbn
      rw [if_pos hshape]
      dsimp only
      rw [hn, hparse, if_pos hlen]
    unfold detect
    dsimp only
    rw [hstrip, if_neg hne, hdoi, harx, hisbn]
    rfl
  · intro q g e hsearch hparse
    rcases htry : tryArxiv q with _ | r
    · rfl
    · rcases hC q r htry with ⟨g2, p, hs2, hok, _⟩
      rw [hsearch] at hs2
      simp only [Option.some.injEq] at hs2
      rw [← hs2] at hok
      rw [hparse] at hok
      exact Except.noConfusion hok

/-- C2 counterexample: `1234.56789V2` fits the detector's case-insensitive
arXiv shape (the pattern. search captures the whole string) but fails
`ArXivID` validation (`NEW_PATTERN` wants a lowercase `v`), and `detect`
does *not* report ARXIV at confidence 0.5 — the arXiv matcher returns
nothing and the query falls through to the TITLE fallback. -/
theorem detect_arxiv_invalid_falls_through_counterexample :
    arxivSearch ('1' :: '2' :: '3' :: '4' :: '.' :: '5' :: '6' :: '7' :: '8' ::
        '9' :: 'V' :: '2' :: []) =
      some ('1' :: '2' :: '3' :: '4' :: '.' :: '5' :: '6' :: '7' :: '8' ::
        '9' :: 'V' :: '2' :: []) ∧
    arxivParse ('1' :: '2' :: '3' :: '4' :: '.' :: '5' :: '6' :: '7' :: '8' ::
        '9' :: 'V' :: '2' :: []) = .error "Invalid new arXiv format" ∧
    detect ('1' :: '2' :: '3' :: '4' :: '.' :: '5' :: '6' :: '7' :: '8' ::
        '9' :: 'V' :: '2' :: []) =
      ⟨.title, 1/2, some ('1' :: '2' :: '3' :: '4' :: '.' :: '5' :: '6' ::
        '7' :: '8' :: '9' :: 'V' :: '2' :: []), none⟩ :=
  ⟨by decide, rfl, rfl⟩

/-- C2 witness: the ISBN-10 half at `ISBN-10: 0-13-409341-1` (tag,
separators, wrong check digit, reported at 0.5), the DOI and arXiv matchers
on accepted captures, and the arXiv fall-through at `1234.56789V2`. -/
theorem detect_reduced_confidence_isbn_only_witness :
    detect ('I' :: 'S' :: 'B' :: 'N' :: '-' :: '1' :: '0' :: ':' :: ' ' ::
        '0' :: '-' :: '1' :: '3' :: '-' :: '4' :: '0' :: '9' :: '3' :: '4' ::
        '1' :: '-' :: '1' :: []) =
      ⟨InputType.isbn_10, 1/2, some ('0' :: '1' :: '3' :: '4' :: '0' :: '9' ::
        '3' :: '4' :: '1' :: '1' :: []), none⟩ ∧
    (∃ g p, doiSearch ('1' :: '0' :: '.' :: '1' :: '0' :: '0' :: '0' :: '/' ::
        'x' :: 'y' :: 'z' :: []) = some g ∧ doiParse g = Except.ok p ∧
      (⟨InputType.doi, 95/100,
          some ('1' :: '0' :: '.' :: '1' :: '0' :: '0' :: '0' :: '/' ::
            'x' :: 'y' :: 'z' :: []),
          some (ParsedId.doi ⟨'1' :: '0' :: '.' :: '1' :: '0' :: '0' :: '0' ::
            '/' :: 'x' :: 'y' :: 'z' :: []⟩)⟩ : DetectionResult) =
        ⟨InputType.doi, 95/100, some p.value, some (ParsedId.doi p)⟩) ∧
    (∃ g p, arxivSearch ('2' :: '3' :: '0' :: '1' :: '.' :: '1' :: '2' ::
        '3' :: '4' :: '5' :: []) = some g ∧ arxivParse g = Except.ok p ∧
      (⟨InputType.arxiv, 95/100,
          some ('2' :: '3' :: '0' :: '1' :: '.' :: '1' :: '2' :: '3' :: '4' ::
            '5' :: []),
          some (ParsedId.arxiv ⟨'2' :: '3' :: '0' :: '1' :: '.' :: '1' :: '2' ::
            '3' :: '4' :: '5' :: [], ArxivFormat.new⟩)⟩ : DetectionResult) =
        ⟨InputType.arxiv, 95/100, some p.value, some (ParsedId.arxiv p)⟩) ∧
    tryArxiv ('1' :: '2' :: '3' :: '4' :: '.' :: '5' :: '6' :: '7' :: '8' ::
        '9' :: 'V' :: '2' :: []) = none :=
  ⟨detect_reduced_confidence_isbn_only.1
      ('I' :: 'S' :: 'B' :: 'N' :: '-' :: '1' :: '0' :: ':' :: ' ' ::
        '0' :: '-' :: '1' :: '3' :: '-' :: '4' :: '0' :: '9' :: '3' :: '4' ::
        '1' :: '-' :: '1' :: [])
      ('I' :: 'S' :: 'B' :: 'N' :: '-' :: '1' :: '0' :: ':' :: ' ' ::
        '0' :: '-' :: '1' :: '3' :: '-' :: '4' :: '0' :: '9' :: '3' :: '4' ::
        '1' :: '-' :: '1' :: [])
      ('0' :: '1' :: '3' :: '4' :: '0' :: '9' :: '3' :: '4' :: '1' :: '1' :: [])
      "Invalid ISBN-10 checksum" rfl (by decide) rfl rfl (Or.inl rfl),
    detect_reduced_confidence_isbn_only.2.1
      ('1' :: '0' :: '.' :: '1' :: '0' :: '0' :: '0' :: '/' :: 'x' :: 'y' ::
        'z' :: [])
      ⟨InputType.doi, 95/100,
        some ('1' :: '0' :: '.' :: '1' :: '0' :: '0' :: '0' :: '/' :: 'x' ::
          'y' :: 'z' :: []),
        some (ParsedId.doi ⟨'1' :: '0' :: '.' :: '1' :: '0' :: '0' :: '0' ::
          '/' :: 'x' :: 'y' :: 'z' :: []⟩)⟩ rfl,
    detect_reduced_confidence_isbn_only.2.2.1
      ('2' :: '3' :: '0' :: '1' :: '.' :: '1' :: '2' :: '3' :: '4' :: '5' :: [])
      ⟨InputType.arxiv, 95/100,
        some ('2' :: '3' :: '0' :: '1' :: '.' :: '1' :: '2' :: '3' :: '4' ::
          '5' :: []),
        some (ParsedId.arxiv ⟨'2' :: '3' :: '0' :: '1' :: '.' :: '1' :: '2' ::
          '3' :: '4' :: '5' :: [], ArxivFormat.new⟩)⟩ rfl,
    detect_reduced_confidence_isbn_only.2.2.2
      ('1' :: '2' :: '3' :: '4' :: '.' :: '5' :: '6' :: '7' :: '8' :: '9' ::
        'V' :: '2' :: [])
      ('1' :: '2' :: '3' :: '4' :: '.' :: '5' :: '6' :: '7' :: '8' :: '9' ::
        'V' :: '2' :: [])
      "Invalid new arXiv format" (by decide) rfl⟩

/-! ## Records and deduplication (`src/consearch/core/models.py`,
`src/consearch/resolution/chain.py`) -/

/-- `core/types.py`, `SourceName`. -/
inductive SourceName where
  | isbndb
  | google_books
  | open_library
  | crossref
  | semantic_scholar
  | arxiv
  | pubmed
deriving DecidableEq, Repr

/-- The `StrEnum` value of a source name (`SourceName.value`). -/
def SourceName.value : SourceName → List Char
  | .isbndb => "isbndb".data
  | .google_books => "google_books".data
  | .open_library => "open_library".data
  | .crossref => "crossref".data
  | .semantic_scholar => "semantic_scholar".data
  | .arxiv => "arxiv".data
  | .pubmed => "pubmed".data

/-- `core/types.py`, `ResolutionStatus`. -/
inductive ResolutionStatus where
  | success
  | not_found
  | rate_limited
  | error
  | timeout
deriving DecidableEq, Repr

/-- `core/models.py`, `Identifiers`: every identifier field is optional. -/
structure Identifiers where
  doi : Option (List Char) := none
  isbn_10 : Option (List Char) := none
  isbn_13 : Option (List Char) := none
  arxiv_id : Option (List Char) := none
  pmid : Option (List Char) := none
  pmcid : Option (List Char) := none
  openlibrary_id : Option (List Char) := none
  semantic_scholar_id : Option (List Char) := none
  isbndb_id : Option (List Char) := none
  crossref_id : Option (List Char) := none
  google_books_id : Option (List Char) := none
deriving DecidableEq, Repr

/-- `core/models.py`, `BaseRecord`, restricted to the fields the
orchestrator reads (`title` and `identifiers`; authorship and publication
metadata are carried opaquely and never inspected by the chain). -/
structure Record where
  title : List Char
  identifiers : Identifiers := {}
deriving DecidableEq, Repr

/-- `resolution/base.py`, `ResolutionResult` (records plus status). -/
structure ResolutionResult where
  status : ResolutionStatus
  records : List Record := []
  error_message : Option (List Char) := none
  source : SourceName
  duration_ms : ℚ := 0
deriving DecidableEq, Repr

/-- `ResolutionResult.success`: `success` status and non-empty records. -/
def resSuccess (r : ResolutionResult) : Bool :=
  r.status = .success && !r.records.isEmpty

/-- Python truthiness of an optional string (`None` and `""` are falsy). -/
def optTruthy (o : Option (List Char)) : Bool :=
  match o with
  | some s => !s.isEmpty
  | none => false

/-- `ChainResolver._get_record_id`: dedup key with precedence
DOI > ISBN-13 > ISBN-10 > arXiv > lowercase title, each identifier used
verbatim. -/
def getRecordId (r : Record) : List Char :=
  if optTruthy r.identifiers.doi then
    ('d' :: 'o' :: 'i' :: ':' :: []) ++ r.identifiers.doi.getD []
  else if optTruthy r.identifiers.isbn_13 then
    ('i' :: 's' :: 'b' :: 'n' :: ':' :: []) ++ r.identifiers.isbn_13.getD []
  else if optTruthy r.identifiers.isbn_10 then
    ('i' :: 's' :: 'b' :: 'n' :: ':' :: []) ++ r.identifiers.isbn_10.getD []
  else if optTruthy r.identifiers.arxiv_id then
    ('a' :: 'r' :: 'x' :: 'i' :: 'v' :: ':' :: []) ++ r.identifiers.arxiv_id.getD []
  else ('t' :: 'i' :: 't' :: 'l' :: 'e' :: ':' :: []) ++ lowerStr r.title

/-- The record loop of `ChainResolver._aggregate_records`: keep the first
record per dedup key, drop later duplicates. -/
def dedupLoop : List (List Char) → List Record → List Record → List Record
  | _, acc, [] => acc
  | seen, acc, rec :: recs =>
    let rid := getRecordId rec
    if !rid.isEmpty && seen.contains rid then dedupLoop seen acc recs
    else
      dedupLoop (if !rid.isEmpty then rid :: seen else seen) (acc ++ [rec]) recs

/-- `primary_result` then `fallback_results`, as `_aggregate_records`
iterates them. -/
def allResults (primary : Option ResolutionResult)
    (fallbacks : List ResolutionResult) : List ResolutionResult :=
  (match primary with
   | some p => [p]
   | none => []) ++ fallbacks

/-- `ChainResolver._aggregate_records`. -/
def aggregateRecords (primary : Option ResolutionResult)
    (fallbacks : List ResolutionResult) : List Record :=
  dedupLoop [] [] (((allResults primary fallbacks).map (·.records)).flatten)

/-- `chain.py`, `AggregatedResult`. -/
structure AggregatedResult where
  primary_result : Option ResolutionResult := none
  fallback_results : List ResolutionResult := []
  all_records : List Record := []
  sources_tried : List (List Char) := []
deriving DecidableEq, Repr

/-- `chain.py`, `FallbackConfig`. -/
structure FallbackConfig where
  stop_on_first_success : Bool := true
  min_reliability_score : ℚ := 0.5
  parallel_execution : Bool := false
  total_timeout : ℚ := 60
deriving DecidableEq, Repr

/-- A resolver as the chain sees it: the filter attributes, the result its
`resolve` produces for the query at hand (`Except` for a raised exception,
which `_try_resolver` converts to an ERROR result), and the time the await
takes. -/
structure SimResolver where
  source : SourceName
  priority : Int := 100
  enabled : Bool := true
  supports : Bool := true
  reliability : ℚ := 0.8
  duration : ℚ := 0
  outcome : Except (List Char) ResolutionResult

/-- `ChainResolver._try_resolver`: a raised exception becomes an ERROR
`ResolutionResult`. -/
def tryResolver (r : SimResolver) : ResolutionResult :=
  match r.outcome with
  | .ok res => res
  | .error msg => ⟨.error, [], some msg, r.source, 0⟩

/-- Stable insertion by ascending priority (Python `sorted` is stable). -/
def insertByPriority (x : SimResolver) :
    List SimResolver → List SimResolver
  | [] => [x]
  | y :: ys =>
    if x.priority ≤ y.priority then x :: y :: ys
    else y :: insertByPriority x ys

/-- The `sorted(resolvers, key=lambda r: r.priority)` of
`ChainResolver.__init__`. -/
def sortByPriority : List SimResolver → List SimResolver
  | [] => []
  | x :: xs => insertByPriority x (sortByPriority xs)

/-- `ChainResolver._filter_resolvers`. -/
def filterResolvers (cfg : FallbackConfig) (rs : List SimResolver) :
    List SimResolver :=
  rs.filter (fun r =>
    r.enabled && r.supports && cfg.min_reliability_score ≤ r.reliability)

/-- The active resolver list for one `resolve` call. -/
def activeResolvers (cfg : FallbackConfig) (rs : List SimResolver) :
    List SimResolver :=
  filterResolvers cfg (sortByPriority rs)

/-- `ChainResolver._run_sequential` under the `asyncio.timeout` deadline:
each await consumes the resolver's duration; if the deadline falls inside
an await, the coroutine is cancelled and its local `results` list is lost —
modelled by returning `none`.  Otherwise the gathered results are
returned. -/
def runSeqSim (cfg : FallbackConfig) : List SimResolver → ℚ →
    Option (List ResolutionResult)
  | [], _ => some []
  | r :: rs, elapsed =>
    if cfg.total_timeout < elapsed + r.duration then none
    else
      let res := tryResolver r
      if cfg.stop_on_first_success && resSuccess res then some [res]
      else
        match runSeqSim cfg rs (elapsed + r.duration) with
        | some more => some (res :: more)
        | none => none

/-- `ChainResolver.resolve` on the sequential path
(`parallel_execution = false` or `stop_on_first_success = true`): on
`TimeoutError` the `except` branch leaves the fresh `AggregatedResult`
untouched, so only `all_records` (aggregated from nothing) is set. -/
def chainResolveSeq (cfg : FallbackConfig) (resolvers : List SimResolver) :
    AggregatedResult :=
  let active := activeResolvers cfg resolvers
  if active.isEmpty then ⟨none, [], [], []⟩
  else
    match runSeqSim cfg active 0 with
    | some results =>
      let primary := results.head?
      let fallbacks := results.tail
      ⟨primary, fallbacks, aggregateRecords primary fallbacks,
        results.map (fun res => res.source.value)⟩
    | none => ⟨none, [], aggregateRecords none [], []⟩

/-- C1 (amended): when the overall deadline fires mid-execution the call
still returns an `AggregatedResult` (the `TimeoutError` is caught, never
re-raised), but that result is empty — the per-resolver results and
`sources_tried` entries gathered before expiry were locals of the cancelled
coroutine and are discarded, not preserved. -/
theorem chainResolve_timeout_returns_empty (cfg : FallbackConfig)
    (resolvers : List SimResolver)
    (h : runSeqSim cfg (activeResolvers cfg resolvers) 0 = none) :
    chainResolveSeq cfg resolvers = ⟨none, [], [], []⟩ := by
  have hne : (activeResolvers cfg resolvers).isEmpty = false := by
    rcases hh : activeResolvers cfg resolvers with _ | ⟨a, l⟩
    · rw [hh] at h
      simp [runSeqSim] at h
    · rfl
  unfold chainResolveSeq
  simp only [hne, Bool.false_eq_true, if_false]
  rw [h]
  rfl

/-- The resolver pair of the C1 scenario: `A` finishes within the deadline
without success, `B` then overruns it. -/
def simResolverA : SimResolver :=
  { source := .open_library, priority := 1, enabled := true, supports := true,
    reliability := 1, duration := 6,
    outcome := .ok ⟨.not_found, [], none, .open_library, 6⟩ }

/-- See `simResolverA`. -/
def simResolverB : SimResolver :=
  { source := .google_books, priority := 2, enabled := true, supports := true,
    reliability := 1, duration := 6,
    outcome := .ok ⟨.success,
      [⟨'b' :: [], { isbn_13 := some ('9' :: '7' :: '8' :: '0' :: '1' :: '3' ::
        '4' :: '0' :: '9' :: '3' :: '4' :: '1' :: '3' :: []) }⟩],
      none, .google_books, 6⟩ }

/-- The C1 configuration: a 10-second deadline that resolver `A` (6s) fits
inside but `A` then `B` (12s) does not. -/
def simCfg : FallbackConfig :=
  { stop_on_first_success := true, min_reliability_score := 0,
    parallel_execution := false, total_timeout := 10 }

/-- Both C1 resolvers pass the filter, in priority order. -/
theorem simActive_eq : activeResolvers simCfg
    (simResolverA :: simResolverB :: []) =
      simResolverA :: simResolverB :: [] := by
  norm_num [activeResolvers, sortByPriority, insertByPriority,
    filterResolvers, simResolverA, simResolverB, simCfg]

/-- In the C1 scenario the deadline falls during resolver `B`'s await, so
the sequential run is cancelled. -/
theorem simRun_times_out : runSeqSim simCfg
    (activeResolvers simCfg (simResolverA :: simResolverB :: [])) 0 =
      none := by
  rw [simActive_eq]
  norm_num [runSeqSim, tryResolver, resSuccess, simResolverA, simResolverB,
    simCfg]

/-- C1 counterexample: the deadline expires during `B`, *after* `A`'s
`ResolutionResult` was gathered (`A` completes at `6 ≤ 10`), yet `resolve`
returns the empty `AggregatedResult`: the gathered partial result and its
`sources_tried` entry are discarded, contradicting the claim that they are
preserved. -/
theorem chain_timeout_discards_partial_counterexample :
    chainResolveSeq simCfg (simResolverA :: simResolverB :: []) =
      ⟨none, [], [], []⟩ ∧
    simResolverA.duration ≤ simCfg.total_timeout ∧
    simCfg.total_timeout < simResolverA.duration + simResolverB.duration := by
  refine ⟨?_, ?_, ?_⟩
  · have hne : (activeResolvers simCfg
        (simResolverA :: simResolverB :: [])).isEmpty = false := by
      rw [simActive_eq]
      rfl
    unfold chainResolveSeq
    simp only [hne, Bool.false_eq_true, if_false]
    rw [simRun_times_out]
    rfl
  · norm_num [simResolverA, simCfg]
  · norm_num [simResolverA, simResolverB, simCfg]

/-- C1 witness: the amended theorem applied to the concrete two-resolver
scenario. -/
theorem chainResolve_timeout_returns_empty_witness :
    chainResolveSeq simCfg (simResolverA :: simResolverB :: []) =
      ⟨none, [], [], []⟩ :=
  chainResolve_timeout_returns_empty simCfg (simResolverA :: simResolverB :: [])
    simRun_times_out

/-- C10: two records for the same book — one carrying only an ISBN-10, the
other only the corresponding ISBN-13, neither carrying a DOI — get distinct
dedup keys (`isbn:<10-digit>` vs `isbn:<13-digit>`), so aggregation keeps
both: deduplication compares identifier fields verbatim and never converts
between ISBN formats. -/
theorem dedup_keeps_both_isbn_formats (rA rB : Record) (x y : List Char)
    (hAdoi : rA.identifiers.doi = none) (hA13 : rA.identifiers.isbn_13 = none)
    (hA10 : rA.identifiers.isbn_10 = some x)
    (hBdoi : rB.identifiers.doi = none)
    (hB13 : rB.identifiers.isbn_13 = some y)
    (hx : x.length = 10) (hy : y.length = 13)
    (res1 res2 : ResolutionResult)
    (h1 : res1.records = [rA]) (h2 : res2.records = [rB]) :
    getRecordId rA = ('i' :: 's' :: 'b' :: 'n' :: ':' :: []) ++ x ∧
    getRecordId rB = ('i' :: 's' :: 'b' :: 'n' :: ':' :: []) ++ y ∧
    getRecordId rA ≠ getRecordId rB ∧
    aggregateRecords (some res1) [res2] = [rA, rB] := by
  have hxne : x.isEmpty = false := by
    rcases x with _ | _
    · simp at hx
    · rfl
  have hyne : y.isEmpty = false := by
    rcases y with _ | _
    · simp at hy
    · rfl
  have hkA : getRecordId rA = ('i' :: 's' :: 'b' :: 'n' :: ':' :: []) ++ x := by
    unfold getRecordId
    rw [hAdoi, hA13, hA10]
    simp [optTruthy, hxne]
  have hkB : getRecordId rB = ('i' :: 's' :: 'b' :: 'n' :: ':' :: []) ++ y := by
    unfold getRecordId
    rw [hBdoi, hB13]
    simp [optTruthy, hyne]
  have hkne : getRecordId rA ≠ getRecordId rB := by
    rw [hkA, hkB]
    intro e
    have := congrArg List.length e
    simp [hx, hy] at this
  refine ⟨hkA, hkB, hkne, ?_⟩
  have hxy : (('i' :: 's' :: 'b' :: 'n' :: ':' :: []) ++ x : List Char) ≠
      ('i' :: 's' :: 'b' :: 'n' :: ':' :: []) ++ y := by
    intro e
    have := congrArg List.length e
    simp [hx, hy] at this
  have hyx : (('i' :: 's' :: 'b' :: 'n' :: ':' :: []) ++ y : List Char) ≠
      ('i' :: 's' :: 'b' :: 'n' :: ':' :: []) ++ x := fun e => hxy e.symm
  unfold aggregateRecords allResults
  have hyx2 : y ≠ x := by
    intro e
    rw [e] at hy
    omega
  simp only [List.map_cons, List.map_nil, List.singleton_append, h1, h2]
  simp [dedupLoop, hkA, hkB, hxy, hyx, hyx2]

/-- The ISBN-10-only record of the C10 scenario. -/
def recIsbn10 : Record :=
  ⟨'b' :: [], { isbn_10 := some ('0' :: '1' :: '3' :: '4' :: '0' :: '9' ::
    '3' :: '4' :: '1' :: '0' :: []) }⟩

/-- The ISBN-13-only record of the C10 scenario. -/
def recIsbn13 : Record :=
  ⟨'b' :: [], { isbn_13 := some ('9' :: '7' :: '8' :: '0' :: '1' :: '3' ::
    '4' :: '0' :: '9' :: '3' :: '4' :: '1' :: '3' :: []) }⟩

/-- C10 witness: the dedup statement at `0134093410` / `9780134093413`. -/
theorem dedup_keeps_both_isbn_formats_witness :
    getRecordId recIsbn10 = ('i' :: 's' :: 'b' :: 'n' :: ':' :: []) ++
      ('0' :: '1' :: '3' :: '4' :: '0' :: '9' :: '3' :: '4' :: '1' :: '0' :: []) ∧
    getRecordId recIsbn13 = ('i' :: 's' :: 'b' :: 'n' :: ':' :: []) ++
      ('9' :: '7' :: '8' :: '0' :: '1' :: '3' :: '4' :: '0' :: '9' :: '3' ::
        '4' :: '1' :: '3' :: []) ∧
    getRecordId recIsbn10 ≠ getRecordId recIsbn13 ∧
    aggregateRecords (some ⟨.success, [recIsbn10], none, .open_library, 0⟩)
      [⟨.success, [recIsbn13], none, .google_books, 0⟩] =
        [recIsbn10, recIsbn13] :=
  dedup_keeps_both_isbn_formats recIsbn10 recIsbn13 _ _
    rfl rfl rfl rfl rfl (by decide) (by decide)
    ⟨.success, [recIsbn10], none, .open_library, 0⟩
    ⟨.success, [recIsbn13], none, .google_books, 0⟩ rfl rfl

/-! ## Reliability scoring (`src/consearch/resolution/base.py`,
`AbstractResolver.reliability_score`) -/

/-- `AbstractResolver.reliability_score`, translated line by line from the
property body (counters as naturals, milliseconds as rationals). -/
def reliabilityScore (baseReliability : ℚ) (succ fail : Nat)
    (totalLatencyMs : ℚ) : ℚ :=
  let total := succ + fail
  if total = 0 then baseReliability
  else
    let success_rate : ℚ := (succ : ℚ) / (total : ℚ)
    let avg_latency : ℚ := totalLatencyMs / ((max total 1 : Nat) : ℚ)
    let latency_factor : ℚ := min 1 (5000 / max avg_latency 100)
    baseReliability * 0.4 + success_rate * 0.4 + latency_factor * 0.2

/-- The reliability formula exactly as the spec words it:
`0.4×baseReliability + 0.4×successRate + 0.2×latencyFactor`, with
`successRate = successes/(successes+failures)`, `latencyFactor =
min(1, 5000/avgLatencyMs)`, `avgLatencyMs` floored at 100 ms, and the
zero-request case giving `baseReliability` alone. -/
def specReliabilityScore (baseReliability : ℚ) (succ fail : Nat)
    (totalLatencyMs : ℚ) : ℚ :=
  if succ + fail = 0 then baseReliability
  else
    0.4 * baseReliability + 0.4 * ((succ : ℚ) / ((succ + fail : Nat) : ℚ)) +
      0.2 * min 1 (5000 / max (totalLatencyMs / ((succ + fail : Nat) : ℚ)) 100)

/-- C9: the implemented reliability score coincides with the spec's formula
for every base reliability, every pair of counters and every accumulated
latency; in particular zero recorded requests give the base reliability
alone. -/
theorem reliabilityScore_matches_spec (baseReliability : ℚ) (succ fail : Nat)
    (totalLatencyMs : ℚ) :
    reliabilityScore baseReliability succ fail totalLatencyMs =
      specReliabilityScore baseReliability succ fail totalLatencyMs ∧
    reliabilityScore baseReliability 0 0 totalLatencyMs = baseReliability := by
  constructor
  · unfold reliabilityScore specReliabilityScore
    by_cases h : succ + fail = 0
    · rw [if_pos h, if_pos h]
    · rw [if_neg h, if_neg h]
      have hmax : max (succ + fail) 1 = succ + fail := by omega
      rw [hmax]
      ring
  · rfl

/-! ## 429 handling (`src/consearch/resolution/base.py`,
`AsyncRateLimiter` and `AbstractResolver._make_request`) -/

/-- `base.py`, `RateLimitConfig` (the fields the 429 path reads). -/
structure RateLimitConfig where
  retry_on_429 : Bool := true
  max_429_retries : Nat := 3
  backoff_factor : ℚ := 2
deriving Repr

/-- `AsyncRateLimiter.handle_429`: bump the consecutive-429 counter and
compute the wait — the `Retry-After` header value when truthy (Python
`if retry_after:`, so `0.0` falls through), else the capped exponential
backoff.  Returns the wait and the new counter. -/
def handle429 (cfg : RateLimitConfig) (consecutive : Nat)
    (retryAfter : Option ℚ) : ℚ × Nat :=
  let consecutive := consecutive + 1
  let wait :=
    match retryAfter with
    | some ra =>
      if ra ≠ 0 then ra
      else min (60 * cfg.backoff_factor ^ (consecutive - 1)) 300
    | none => min (60 * cfg.backoff_factor ^ (consecutive - 1)) 300
  (wait, consecutive)

/-- `AsyncRateLimiter.should_retry_429`. -/
def shouldRetry429 (cfg : RateLimitConfig) (consecutive : Nat) : Bool :=
  cfg.retry_on_429 && consecutive < cfg.max_429_retries

/-- What the `while True` loop of `_make_request` can produce.
`unboundLocal` models the Python `UnboundLocalError` raised when a name is
read before any assignment. -/
inductive ReqOutcome where
  | ok (status : Nat)
  | rateLimitError (retry_after : ℚ)
  | unboundLocal
  | outOfResponses
deriving Repr

/-- The response loop of `AbstractResolver._make_request`, driven by the
scripted responses `(status, Retry-After)` the server returns.  `waitVar`
is the local variable `wait_time`: `none` while unassigned.  On a 429 with
retries left the computed wait is stored and the loop continues; with no
retry left the code raises `RateLimitError(retry_after=wait_time)` — which
reads `wait_time`, unbound if no retry ever ran.  Any other status resets
the consecutive-429 counter and returns the response. -/
def makeRequestLoop (cfg : RateLimitConfig) :
    List (Nat × Option ℚ) → Nat → Option ℚ → ReqOutcome
  | [], _, _ => .outOfResponses
  | (status, retryAfter) :: rest, consecutive, waitVar =>
    if status = 429 then
      if shouldRetry429 cfg consecutive then
        let wc := handle429 cfg consecutive retryAfter
        makeRequestLoop cfg rest wc.2 (some wc.1)
      else
        match waitVar with
        | some w => .rateLimitError w
        | none => .unboundLocal
    else .ok status

/-- C8: the code path the claim describes.  With retry-on-429 disabled (or
`max_429_retries = 0`) the very first 429 takes the no-retry branch with
`wait_time` never assigned, so the code raises `UnboundLocalError`, not
`RateLimitError`.  And when retries *are* exhausted, the surfaced
`retry_after` is the wait computed for the last *retried* 429 (here
`60·2⁰ = 60`), not a backoff computed for the final 429 (which would be
`60·2¹ = 120`). -/
theorem makeRequest_429_exhaustion :
    makeRequestLoop ⟨false, 3, 2⟩ ((429, none) :: []) 0 none = .unboundLocal ∧
    makeRequestLoop ⟨true, 0, 2⟩ ((429, none) :: []) 0 none = .unboundLocal ∧
    makeRequestLoop ⟨true, 1, 2⟩ ((429, none) :: (429, none) :: []) 0 none =
      .rateLimitError (min (60 * (2 : ℚ) ^ (0 : Nat)) 300) ∧
    min (60 * (2 : ℚ) ^ (0 : Nat)) 300 = 60 ∧
    min (60 * (2 : ℚ) ^ (1 : Nat)) 300 = 120 ∧
    (60 : ℚ) ≠ 120 := by
  refine ⟨rfl, rfl, ?_, by norm_num, by norm_num, by norm_num⟩
  show makeRequestLoop ⟨true, 1, 2⟩ ((429, none) :: (429, none) :: []) 0 none =
    .rateLimitError (min (60 * (2 : ℚ) ^ (0 : Nat)) 300)
  unfold makeRequestLoop handle429 shouldRetry429
  norm_num
  unfold makeRequestLoop shouldRetry429
  norm_num

end Consearch

